import Mathlib

/-!
Verification of the core subsystems of the talk-submission intake service:
the SQLite-backed sliding-window rate limiter (src/backend/rate-limit.ts)
and the autothread poll-and-dedupe engine (src/backend/autothread/logic.ts,
src/backend/autothread/store.ts, src/backend/errors.ts).

Modelling conventions:
- JavaScript strings are Lean strings over code points; epoch milliseconds
  are Int; numeric snowflake ids are Nat.
- The shared SQLite store is explicit state: a function map for the rate
  limit table (keyed by caller identity) and record-of-lists for the
  autothread tables.  SQLite's second-granularity DATETIME timestamps are
  abstracted to the millisecond timeline.
- External collaborators (the Discord REST client and the OpenAI naming
  call) are pure oracles supplied as parameters; the thrown-value universe
  of JavaScript is the inductive JsErr.
-/

/-! ### JavaScript string and number helpers -/

/-- Prefix test on character lists, used to implement substring search. -/
def listStartsWith : List Char → List Char → Bool
  | _, [] => true
  | [], _ :: _ => false
  | a :: as, b :: bs => a == b && listStartsWith as bs

/-- Substring occurrence test on character lists. -/
def containsSeq : List Char → List Char → Bool
  | [], pat => pat.isEmpty
  | a :: tl, pat => listStartsWith (a :: tl) pat || containsSeq tl pat

/-- JS String.prototype.includes. -/
def jsIncludes (s pat : String) : Bool := containsSeq s.data pat.data

/-- Math.ceil (a / b) for integer a and positive integer b, exact. -/
def jsCeilDiv (a b : Int) : Int := -(Int.ediv (-a) b)

/-- JS String.prototype.padStart(2, "0"). -/
def padStart2 (s : String) : String :=
  if s.length < 2 then String.mk (List.replicate (2 - s.length) '0') ++ s else s

/-- The JS regex whitespace class (backslash-s) as a character predicate. -/
def isJsWhitespace (c : Char) : Bool :=
  c == ' ' || c == '\t' || c == '\n' || c == '\r' || c == '\x0b' || c == '\x0c' ||
  c == '\u00A0' || c == '\u1680' || c == '\u2000' || c == '\u2001' || c == '\u2002' ||
  c == '\u2003' || c == '\u2004' || c == '\u2005' || c == '\u2006' || c == '\u2007' ||
  c == '\u2008' || c == '\u2009' || c == '\u200A' || c == '\u2028' || c == '\u2029' ||
  c == '\u202F' || c == '\u205F' || c == '\u3000' || c == '\uFEFF'

/-- Collapse every maximal whitespace run to a single space: the effect of
JS replace of the whitespace-run regex by a single space.  The boolean flag
records whether the previous character belonged to a whitespace run. -/
def collapseWsAux : Bool → List Char → List Char
  | _, [] => []
  | prevWs, c :: rest =>
    if isJsWhitespace c then
      if prevWs then collapseWsAux true rest
      else ' ' :: collapseWsAux true rest
    else c :: collapseWsAux false rest

/-- JS String.prototype.trim on a character list. -/
def jsTrim (l : List Char) : List Char :=
  ((l.dropWhile isJsWhitespace).reverse.dropWhile isJsWhitespace).reverse

/-! ### The JavaScript thrown-value universe (src/backend/errors.ts) -/

/-- A value thrown by JS code as seen by the catch handlers of this repo:
a DiscordApiError carrying an HTTP status and optional Discord error code,
any other Error carrying a message, or a non-Error value rendered by
String conversion. -/
inductive JsErr where
  | discordApi (status : Nat) (code : Option Nat)
  | plainError (message : String)
  | nonErrorValue (text : String)
deriving DecidableEq

/-- The message of the thrown value: DiscordApiError builds its message in
its constructor; a non-Error value is rendered with String conversion. -/
def jsErrMessage : JsErr → String
  | .discordApi status code =>
    "Discord API error: " ++ toString status ++
      (match code with
       | some c => " (code " ++ toString c ++ ")"
       | none => "")
  | .plainError message => message
  | .nonErrorValue text => text

/-- Check whether a Discord error means a thread already exists for the
message (src/backend/errors.ts, isThreadAlreadyExistsError). -/
def isThreadAlreadyExistsError : JsErr → Bool
  | .discordApi _ (some 160004) => true
  | _ => false

/-! ### Rate limiter data model (src/backend/rate-limit.ts) -/

structure RateLimiterConfig where
  maxRequests : Nat
  windowSeconds : Nat
  maxRetries : Nat := 3
  initialBackoffMs : Nat := 50
deriving DecidableEq

/-- windowSeconds converted to milliseconds in the constructor. -/
def windowMsOf (cfg : RateLimiterConfig) : Int := (cfg.windowSeconds : Int) * 1000

structure RateLimitResult where
  allowed : Bool
  retryAfterSeconds : Option Int := none
deriving DecidableEq

/-- The request_times TEXT column of the rate_limit_store table: a JSON
array of timestamps, valid JSON that is not an array, or corrupt JSON. -/
inductive StoredTimes where
  | jsonArray (times : List Int)
  | jsonNonArray
  | corruptJson
deriving DecidableEq

structure RateLimitRow where
  request_times : StoredTimes
  updated_at : Int
deriving DecidableEq

/-- The rate_limit_store table, keyed by the rate limit key. -/
def RateLimitStore := String → Option RateLimitRow

/-- The defensive parse of the stored column: a JSON array parses to its
timestamps; a non-array parse and a JSON parse failure both reset to the
empty list (the two warn branches in checkWithTransaction). -/
def parseStoredTimes : StoredTimes → List Int
  | .jsonArray times => times
  | .jsonNonArray => []
  | .corruptJson => []

/-- The timestamp list the transaction sees for a key: parse the stored
row, or the empty list when no row exists. -/
def storeTimes (store : RateLimitStore) (key : String) : List Int :=
  match store key with
  | some row => parseStoredTimes row.request_times
  | none => []

/-- The stored request_times column value for a key, when a row exists. -/
def requestTimesVal (store : RateLimitStore) (key : String) : Option StoredTimes :=
  (store key).map (fun r => r.request_times)

/-- The recent (in-window) timestamps a call at the given instant sees:
the parsed stored list filtered to timestamps at or after windowStart,
where windowStart = now - windowMs (computed in RateLimiter.check and
passed into checkWithTransaction). -/
def recentOf (cfg : RateLimiterConfig) (store : RateLimitStore) (key : String) (now : Int) : List Int :=
  (storeTimes store key).filter (fun t => decide (now - windowMsOf cfg ≤ t))

/-- One successful execution of RateLimiter.checkWithTransaction: read the
key's row, filter to the sliding window (recentOf), and either reject
(refreshing only updated_at, and only when a row exists) or allow
(persisting the filtered window plus the current timestamp).  Math.min of
an empty array cannot be reached with a positive maxRequests; its
stand-in default here is 0. -/
def checkWithTransaction (cfg : RateLimiterConfig) (store : RateLimitStore)
    (key : String) (now : Int) : RateLimitResult × RateLimitStore :=
  if cfg.maxRequests ≤ (recentOf cfg store key now).length then
    ({ allowed := false,
       retryAfterSeconds :=
         some (max 1 (jsCeilDiv (((recentOf cfg store key now).min?).getD 0 + windowMsOf cfg - now) 1000)) },
     fun k => if k = key then (store key).map (fun row => { row with updated_at := now }) else store k)
  else
    ({ allowed := true },
     fun k => if k = key then
         some { request_times := .jsonArray (recentOf cfg store key now ++ [now]), updated_at := now }
       else store k)

/-- Run a sequence of check calls for one key at the given instants,
threading the store, and record each call's instant and result. -/
def runChecks (cfg : RateLimiterConfig) (key : String) :
    RateLimitStore → List Int → List (Int × RateLimitResult)
  | _, [] => []
  | store, t :: ts =>
    let step := checkWithTransaction cfg store key t
    (t, step.1) :: runChecks cfg key step.2 ts

/-- The instants of the calls that returned allowed = true. -/
def allowedTimes (results : List (Int × RateLimitResult)) : List Int :=
  (results.filter (fun p => p.2.allowed)).map (fun p => p.1)

/-- Membership of an instant in the trailing window of length W ending at T. -/
def inWindow (W T t : Int) : Bool := decide (T - W ≤ t) && decide (t ≤ T)

/-! ### The retry loop of RateLimiter.check -/

/-- Detect SQLITE_BUSY via message matching (isSqliteBusyError): only an
Error instance is inspected; its lowercased message is searched for the
two busy markers. -/
def isSqliteBusyError (e : JsErr) : Bool :=
  match e with
  | .nonErrorValue _ => false
  | _ =>
    let message := (jsErrMessage e).toLower
    jsIncludes message "sqlite_busy" || jsIncludes message "database is locked"

/-- The while loop of RateLimiter.check, with the attempt counter explicit
and the outcome of each transactional attempt supplied by an oracle.  The
fuel argument counts the remaining loop iterations (attempt runs from 0 to
maxRetries inclusive); the fuel-0 case is the unreachable fail-open return
after the loop. -/
def checkAttemptLoop (cfg : RateLimiterConfig)
    (attemptOutcome : Nat → Except JsErr RateLimitResult) : Nat → Nat → RateLimitResult
  | _, 0 => { allowed := true }
  | attempt, fuel + 1 =>
    match attemptOutcome attempt with
    | .ok r => r
    | .error e =>
      if isSqliteBusyError e && decide (attempt < cfg.maxRetries) then
        checkAttemptLoop cfg attemptOutcome (attempt + 1) fuel
      else
        { allowed := true }

/-- RateLimiter.check: run the transactional attempt with busy retries,
failing open when the attempts cannot complete. -/
def rateLimiterCheck (cfg : RateLimiterConfig)
    (attemptOutcome : Nat → Except JsErr RateLimitResult) : RateLimitResult :=
  checkAttemptLoop cfg attemptOutcome 0 (cfg.maxRetries + 1)

/-! ### Autothread data model (src/backend/autothread/types.ts, store.ts) -/

/-- Execution modes for the autothread engine. -/
inductive ExecutionMode where
  | plan
  | dry_run
  | live
deriving DecidableEq

/-- The autothread run configuration (namespace, iteration and timing
fields of the source config drive the outer cron loop only and are not
needed by the per-run logic modelled here). -/
structure AutothreadConfig where
  mode : ExecutionMode
  enableAI : Bool
  channelAllowlist : Option (List Nat)
  maxChannelsPerRun : Nat
  maxThreadsPerRun : Nat
deriving DecidableEq

def COOLDOWN_WINDOW_MS : Int := 10 * 60 * 1000

def MAX_THREADS_PER_CHANNEL_PER_WINDOW : Nat := 3

def MAX_THREAD_NAME_LENGTH : Nat := 97

def MIN_MESSAGE_LENGTH : Nat := 10

structure DiscordAuthor where
  username : String
  bot : Bool
deriving DecidableEq

/-- A Discord message as consumed by the engine: numeric snowflake id,
author, content, epoch-millisecond timestamp, and the already-attached
thread if any. -/
structure DiscordMessage where
  id : Nat
  author : DiscordAuthor
  content : String
  timestamp : Int
  thread : Option String
deriving DecidableEq

/-- A Discord channel; the source field named type is typeId here. -/
structure DiscordChannel where
  id : Nat
  typeId : Nat
  name : String
  topic : Option String
deriving DecidableEq

/-- Match of the autothread opt-in tag regex at the start of a character
list: the literal open-bracket autothread, then either a closing bracket,
or a colon, one or more non-closing-bracket characters and a closing
bracket. -/
def closeAfterNonEmpty : List Char → Bool
  | [] => false
  | ']' :: _ => true
  | _ :: rest => closeAfterNonEmpty rest

def tagModifierMatch : List Char → Bool
  | [] => false
  | ']' :: _ => false
  | _ :: rest => closeAfterNonEmpty rest

def tagMatchAt : List Char → Bool
  | '[' :: 'a' :: 'u' :: 't' :: 'o' :: 't' :: 'h' :: 'r' :: 'e' :: 'a' :: 'd' :: rest =>
    (match rest with
     | ']' :: _ => true
     | ':' :: rest2 => tagModifierMatch rest2
     | _ => false)
  | _ => false

def tagScan : List Char → Bool
  | [] => tagMatchAt []
  | c :: rest => tagMatchAt (c :: rest) || tagScan rest

/-- Case-insensitive test for the autothread opt-in tag in a channel topic
(hasAutothreadTag in logic.ts). -/
def hasAutothreadTag (topic : Option String) : Bool :=
  match topic with
  | none => false
  | some t => tagScan t.toLower.data

/-- Case-insensitive test for the quiet-mode tag (hasQuietMode). -/
def hasQuietMode (topic : Option String) : Bool :=
  match topic with
  | none => false
  | some t => jsIncludes t.toLower "[autothread:quiet]"

/-- JS whitespace collapse plus trim (sanitizeContent in logic.ts). -/
def sanitizeContent (content : String) : String :=
  String.mk (jsTrim (collapseWsAux false content.data))

/-- getUTCHours of an epoch-millisecond instant. -/
def jsGetUTCHours (ms : Int) : Int := (Int.ediv ms 3600000).emod 24

/-- getUTCMinutes of an epoch-millisecond instant. -/
def jsGetUTCMinutes (ms : Int) : Int := (Int.ediv ms 60000).emod 60

/-- Deterministic thread-name derivation (generateThreadName in logic.ts):
sanitized content of sufficient length, truncated with an ellipsis above
the name cap; otherwise the fallback template from the author name and
the message's UTC clock time. -/
def generateThreadName (msg : DiscordMessage) : String :=
  let sanitized := sanitizeContent msg.content
  if MIN_MESSAGE_LENGTH ≤ sanitized.length then
    if MAX_THREAD_NAME_LENGTH < sanitized.length then
      String.mk (sanitized.data.take (MAX_THREAD_NAME_LENGTH - 3)) ++ "..."
    else sanitized
  else
    let hours := padStart2 (toString (jsGetUTCHours msg.timestamp))
    let minutes := padStart2 (toString (jsGetUTCMinutes msg.timestamp))
    "Discussion from " ++ msg.author.username ++ " @ " ++ hours ++ ":" ++ minutes

/-- The three content-shape regexes (emoji-only, link-only, mention-only)
abstracted as their induced predicates on the sanitized content; the
claims under verification do not depend on their internals. -/
structure ContentPatterns where
  emojiOnly : String → Bool
  linkOnly : String → Bool
  mentionOnly : String → Bool

/-- The command-prefix regex: the first character is one of the three
command characters. -/
def startsWithCommandChar (s : String) : Bool :=
  match s.data with
  | [] => false
  | c :: _ => c == '!' || c == '/' || c == '.'

structure GateResult where
  name : String
  passed : Bool
  reason : Option String
deriving DecidableEq

structure GateEvaluation where
  messageId : Nat
  passed : Bool
  gates : List GateResult
deriving DecidableEq

/-- The seven content-admission gates (evaluateMessageGates in logic.ts). -/
def evaluateMessageGates (pats : ContentPatterns) (msg : DiscordMessage) : GateEvaluation :=
  let isBot := msg.author.bot
  let hasThread := msg.thread.isSome
  let sanitized := sanitizeContent msg.content
  let tooShort := decide (sanitized.length < MIN_MESSAGE_LENGTH)
  let isCommand := startsWithCommandChar sanitized
  let isEmojiOnly := pats.emojiOnly sanitized
  let isLinkOnly := pats.linkOnly sanitized
  let isMentionOnly := pats.mentionOnly sanitized
  let gates : List GateResult :=
    [{ name := "not_bot", passed := !isBot,
       reason := if isBot then some "Author is a bot" else none },
     { name := "no_existing_thread", passed := !hasThread,
       reason := if hasThread then some "Message already has a thread" else none },
     { name := "min_length", passed := !tooShort,
       reason := if tooShort then
           some ("Content too short (" ++ toString sanitized.length ++ " < " ++
             toString MIN_MESSAGE_LENGTH ++ ")")
         else none },
     { name := "not_command", passed := !isCommand,
       reason := if isCommand then some "Starts with command prefix (!, /, .)" else none },
     { name := "not_emoji_only", passed := !isEmojiOnly,
       reason := if isEmojiOnly then some "Contains only emoji" else none },
     { name := "not_link_only", passed := !isLinkOnly,
       reason := if isLinkOnly then some "Contains only links" else none },
     { name := "not_mention_only", passed := !isMentionOnly,
       reason := if isMentionOnly then some "Contains only mentions" else none }]
  { messageId := msg.id, passed := gates.all (fun g => g.passed), gates := gates }

/-! ### Autothread store tables (src/backend/autothread/store.ts) -/

inductive MessageStatus where
  | processing
  | created
  | skipped
  | error
  | dry_run
  | planned
deriving DecidableEq

structure ProcRow where
  channelId : Nat
  messageId : Nat
  threadId : Option String
  status : MessageStatus
  error : Option String
  processedAt : Int
deriving DecidableEq

structure ChannelRow where
  channelId : Nat
  name : String
  topic : Option String
  lastMessageId : Option Nat
  lastSeenAt : Int
deriving DecidableEq

structure StatsRow where
  channelId : Nat
  date : Int
  threadsCreated : Nat
  lastThreadAt : Int
deriving DecidableEq

/-- The autothread tables of one namespace: channel cursors, processed
messages (composite primary key channel_id, message_id) and per-day
stats.  The runs and events tables record observability data only and
are not modelled. -/
structure AutothreadDB where
  channels : List ChannelRow
  processed : List ProcRow
  stats : List StatsRow
deriving DecidableEq

/-- Composite-key match on the processed table. -/
def procKeyMatch (cid mid : Nat) (r : ProcRow) : Bool :=
  r.channelId == cid && r.messageId == mid

/-- Primary-key lookup on the processed table. -/
def lookupProcessed (db : AutothreadDB) (cid mid : Nat) : Option ProcRow :=
  db.processed.find? (procKeyMatch cid mid)

/-- AutothreadStore.getLastMessageId. -/
def getLastMessageId (db : AutothreadDB) (cid : Nat) : Option Nat :=
  match db.channels.find? (fun r => r.channelId == cid) with
  | some row => row.lastMessageId
  | none => none

/-- AutothreadStore.updateChannelState: upsert of the channel row; the
stored cursor takes the new value when one is passed and is otherwise
kept (the COALESCE in the ON CONFLICT clause). -/
def updateChannelState (db : AutothreadDB) (now : Int) (cid : Nat) (name : String)
    (topic : Option String) (lastMessageId : Option Nat) : AutothreadDB :=
  if (db.channels.find? (fun r => r.channelId == cid)).isSome then
    { db with channels := db.channels.map (fun r =>
        if r.channelId == cid then
          { r with
            name := name,
            topic := topic,
            lastMessageId := match lastMessageId with | some v => some v | none => r.lastMessageId,
            lastSeenAt := now }
        else r) }
  else
    { db with channels := db.channels ++
        [{ channelId := cid, name := name, topic := topic,
           lastMessageId := lastMessageId, lastSeenAt := now }] }

/-- The row a successful claim INSERT writes. -/
def claimRow (now : Int) (cid mid : Nat) (status : MessageStatus) : ProcRow :=
  { channelId := cid, messageId := mid, threadId := none,
    status := status, error := none, processedAt := now }

/-- AutothreadStore.tryClaimMessage: the INSERT succeeds exactly when no
row with the composite key exists (the UNIQUE constraint is the presence
check); a collision returns false and leaves the table unchanged. -/
def tryClaimMessage (db : AutothreadDB) (now : Int) (cid mid : Nat)
    (status : MessageStatus) : Bool × AutothreadDB :=
  if (lookupProcessed db cid mid).isSome then (false, db)
  else (true, { db with processed := db.processed ++ [claimRow now cid mid status] })

/-- AutothreadStore.updateMessageStatus: set status, thread_id, error and
processed_at on the row with the composite key. -/
def updateMessageStatus (db : AutothreadDB) (now : Int) (cid mid : Nat)
    (status : MessageStatus) (threadId : Option String) (error : Option String) : AutothreadDB :=
  { db with processed := db.processed.map (fun r =>
      if procKeyMatch cid mid r then
        { r with status := status, threadId := threadId, error := error, processedAt := now }
      else r) }

/-- The count behind AutothreadStore.isChannelOnCooldown: created rows of
the channel with processed_at strictly after the cutoff. -/
def createdInWindowCount (db : AutothreadDB) (cutoff : Int) (cid : Nat) : Nat :=
  db.processed.countP (fun r =>
    r.channelId == cid && r.status == MessageStatus.created && decide (cutoff < r.processedAt))

/-- AutothreadStore.isChannelOnCooldown. -/
def isChannelOnCooldown (db : AutothreadDB) (now : Int) (cid : Nat)
    (windowMs : Int) (maxThreads : Nat) : Bool :=
  decide (maxThreads ≤ createdInWindowCount db (now - windowMs) cid)

/-- The YYYY-MM-DD date key of the stats table, abstracted to the UTC day
index of the instant. -/
def jsDateKey (now : Int) : Int := Int.ediv now 86400000

/-- AutothreadStore.recordThreadCreated: per-day upsert incrementing the
channel's creation counter. -/
def recordThreadCreated (db : AutothreadDB) (now : Int) (cid : Nat) : AutothreadDB :=
  if (db.stats.find? (fun r => r.channelId == cid && r.date == jsDateKey now)).isSome then
    { db with stats := db.stats.map (fun r =>
        if r.channelId == cid && r.date == jsDateKey now then
          { r with threadsCreated := r.threadsCreated + 1, lastThreadAt := now }
        else r) }
  else
    { db with stats := db.stats ++
        [{ channelId := cid, date := jsDateKey now, threadsCreated := 1, lastThreadAt := now }] }

/-! ### Autothread engine (src/backend/autothread/logic.ts) -/

/-- The AI naming result (AIThreadResult in types.ts). -/
structure AIThreadResult where
  threadName : String
  summary : Option String
deriving DecidableEq

/-- External collaborators for one channel, as pure oracles: the paginated
message listing, the outcome of the thread-creation call (thread id or
thrown value), and the outcome of the AI naming call, which in the source
already swallows every failure and returns null (generateAIThreadName);
the context gathering that feeds the AI prompt is absorbed into the
oracle. -/
structure ChannelEnv where
  getMessages : Option Nat → List DiscordMessage
  threadOutcome : Nat → String → Except JsErr String
  aiOutcome : Nat → Option AIThreadResult

/-- A planned or performed action (PlannedAction in types.ts); the source
field named type is actionType here. -/
inductive ActionType where
  | create_thread
  | skip
  | cooldown
  | error
deriving DecidableEq

structure PlannedAction where
  actionType : ActionType
  channelId : Nat
  channelName : String
  messageId : Option Nat := none
  reason : Option String := none
  threadName : Option String := none
  wouldPostSummary : Option Bool := none
deriving DecidableEq

/-- A run event (RunEvent in types.ts); the timestamp and details payload
are observability-only and elided. -/
structure RunEvt where
  level : String
  event : String
  channelId : Option Nat := none
  messageId : Option Nat := none
deriving DecidableEq

/-- The mutable run context (RunContext in types.ts; runId elided). -/
structure RunCtxState where
  threadsCreatedThisRun : Nat
  errorsThisRun : Nat
  lastError : Option String
  events : List RunEvt
deriving DecidableEq

/-- An external side-effecting Discord call performed by the engine. -/
inductive ExtCall where
  | startThread (channelId : Nat) (messageId : Nat) (threadName : String)
  | sendMessage (threadId : String) (content : String)
deriving DecidableEq

/-- The loop state of processChannel: the store, the run context, the
threads created in this channel, the in-memory safelyProcessedUpTo
marker, the collected actions and the external calls performed. -/
structure ChanState where
  db : AutothreadDB
  ctx : RunCtxState
  threadsCreated : Nat
  safeUpTo : Option Nat
  actions : List PlannedAction
  extCalls : List ExtCall
deriving DecidableEq

def pushEvent (s : ChanState) (e : RunEvt) : ChanState :=
  { s with ctx := { s.ctx with events := s.ctx.events ++ [e] } }

/-- JS truthiness of an optional string: null and the empty string are
falsy. -/
def strTruthy : Option String → Bool
  | some sm => !(sm == "")
  | none => false

/-- The thread name the engine ends up with for a message: the AI result
when AI naming is enabled and succeeds, the deterministic name
otherwise. -/
def chosenThreadName (cfg : AutothreadConfig) (env : ChannelEnv) (msg : DiscordMessage) : String :=
  if cfg.enableAI then
    match env.aiOutcome msg.id with
    | some r => r.threadName
    | none => generateThreadName msg
  else generateThreadName msg

/-- The summary the engine ends up with for a message. -/
def chosenSummary (cfg : AutothreadConfig) (env : ChannelEnv) (msg : DiscordMessage) : Option String :=
  if cfg.enableAI then
    match env.aiOutcome msg.id with
    | some r => r.summary
    | none => none
  else none

/-- The body of the per-message loop of processChannel, for one message:
gate evaluation and the skip path, the plan-mode projection, the
claim-then-act sequence with the dry-run shortcut, and the live path with
its three outcomes (created, already-exists remapped to created, error). -/
def processMessageStep (cfg : AutothreadConfig) (env : ChannelEnv) (pats : ContentPatterns)
    (channel : DiscordChannel) (now : Int) (isQuietMode : Bool)
    (s : ChanState) (msg : DiscordMessage) : ChanState :=
  let gateEval := evaluateMessageGates pats msg
  if !gateEval.passed then
    let failedGate := gateEval.gates.find? (fun g => !g.passed)
    let reason := (failedGate.bind (fun g => g.reason)).getD "Failed gate evaluation"
    let skipAct : PlannedAction :=
      { actionType := .skip, channelId := channel.id, channelName := channel.name,
        messageId := some msg.id, reason := some reason }
    let s1 := { s with actions := s.actions ++ [skipAct] }
    if cfg.mode ≠ ExecutionMode.plan then
      let claim := tryClaimMessage s1.db now channel.id msg.id .skipped
      { s1 with db := claim.2, safeUpTo := some msg.id }
    else s1
  else if cfg.mode = ExecutionMode.plan then
    let threadName := chosenThreadName cfg env msg
    let wouldPostSummary := strTruthy (chosenSummary cfg env msg) && !isQuietMode
    let planAct : PlannedAction :=
      { actionType := .create_thread, channelId := channel.id, channelName := channel.name,
        messageId := some msg.id, threadName := some threadName,
        wouldPostSummary := some wouldPostSummary }
    let s1 := { s with actions := s.actions ++ [planAct] }
    let s2 := pushEvent s1
      { level := "info", event := "would_create_thread",
        channelId := some channel.id, messageId := some msg.id }
    { s2 with threadsCreated := s2.threadsCreated + 1 }
  else
    let claimStatus := if cfg.mode = ExecutionMode.dry_run then MessageStatus.dry_run
      else MessageStatus.processing
    let claim := tryClaimMessage s.db now channel.id msg.id claimStatus
    if !claim.1 then
      { s with db := claim.2, safeUpTo := some msg.id }
    else
      let s1 := { s with db := claim.2 }
      let threadName := chosenThreadName cfg env msg
      let summary := chosenSummary cfg env msg
      if cfg.mode = ExecutionMode.dry_run then
        let s2 := pushEvent s1
          { level := "info", event := "dry_run_thread",
            channelId := some channel.id, messageId := some msg.id }
        let dryAct : PlannedAction :=
          { actionType := .create_thread, channelId := channel.id, channelName := channel.name,
            messageId := some msg.id, threadName := some threadName,
            wouldPostSummary := some (strTruthy summary && !isQuietMode) }
        let s3 := { s2 with actions := s2.actions ++ [dryAct] }
        { s3 with threadsCreated := s3.threadsCreated + 1, safeUpTo := some msg.id }
      else
        let startCall : ExtCall := .startThread channel.id msg.id threadName
        let s2 := { s1 with extCalls := s1.extCalls ++ [startCall] }
        match env.threadOutcome msg.id threadName with
        | .ok threadId =>
          let s3 := if strTruthy summary && !isQuietMode then
              { s2 with extCalls := s2.extCalls ++ [ExtCall.sendMessage threadId (summary.getD "")] }
            else s2
          let s4 := { s3 with db := recordThreadCreated (updateMessageStatus s3.db now channel.id msg.id .created (some threadId) none) now channel.id }
          let s5 := pushEvent s4
            { level := "info", event := "thread_created",
              channelId := some channel.id, messageId := some msg.id }
          let okAct : PlannedAction :=
            { actionType := .create_thread, channelId := channel.id,
              channelName := channel.name, messageId := some msg.id,
              threadName := some threadName }
          let s6 := { s5 with actions := s5.actions ++ [okAct] }
          { s6 with threadsCreated := s6.threadsCreated + 1, safeUpTo := some msg.id }
        | .error e =>
          if isThreadAlreadyExistsError e then
            let s3 := { s2 with db := updateMessageStatus s2.db now channel.id msg.id .created none none }
            let s4 := pushEvent s3
              { level := "info", event := "thread_already_exists",
                channelId := some channel.id, messageId := some msg.id }
            { s4 with safeUpTo := some msg.id }
          else
            let errorMsg := jsErrMessage e
            let ctx3 : RunCtxState :=
              { s2.ctx with errorsThisRun := s2.ctx.errorsThisRun + 1, lastError := some errorMsg }
            let s3 := { s2 with ctx := ctx3 }
            let s4 := { s3 with db := updateMessageStatus s3.db now channel.id msg.id .error none (some errorMsg) }
            let s5 := pushEvent s4
              { level := "error", event := "thread_creation_failed",
                channelId := some channel.id, messageId := some msg.id }
            let errAct : PlannedAction :=
              { actionType := .error, channelId := channel.id, channelName := channel.name,
                messageId := some msg.id, reason := some errorMsg }
            let s6 := { s5 with actions := s5.actions ++ [errAct] }
            { s6 with safeUpTo := some msg.id }

/-- The per-message loop of processChannel, including the per-run thread
cap check that breaks the loop. -/
def processLoop (cfg : AutothreadConfig) (env : ChannelEnv) (pats : ContentPatterns)
    (channel : DiscordChannel) (now : Int) (isQuietMode : Bool) :
    List DiscordMessage → ChanState → ChanState
  | [], s => s
  | msg :: rest, s =>
    if cfg.maxThreadsPerRun ≤ s.ctx.threadsCreatedThisRun + s.threadsCreated then
      pushEvent s { level := "warn", event := "thread_cap_reached" }
    else
      processLoop cfg env pats channel now isQuietMode rest
        (processMessageStep cfg env pats channel now isQuietMode s msg)

def MAX_PAGES : Nat := 3

/-- The backward-pagination fetch loop of processChannel: up to MAX_PAGES
batches, stopping on an empty batch or once the oldest message of a batch
is at or below the stored cursor. -/
def fetchLoop (getMessages : Option Nat → List DiscordMessage) (lastMessageId : Option Nat) :
    Nat → Option Nat → List DiscordMessage
  | 0, _ => []
  | fuel + 1, before =>
    let batch := getMessages before
    match batch.getLast? with
    | none => []
    | some lastMsg =>
      let shouldBreak := match lastMessageId with
        | some l => decide (lastMsg.id ≤ l)
        | none => false
      if shouldBreak then batch
      else batch ++ fetchLoop getMessages lastMessageId fuel (some lastMsg.id)

def fetchAllMessages (env : ChannelEnv) (lastMessageId : Option Nat) : List DiscordMessage :=
  fetchLoop env.getMessages lastMessageId MAX_PAGES none

/-- The sort comparator of processChannel: ascending by numeric id. -/
def msgIdLe (a b : DiscordMessage) : Prop := a.id ≤ b.id

instance : DecidableRel msgIdLe := fun a b => Nat.decLe a.id b.id

instance : IsTotal DiscordMessage msgIdLe := ⟨fun a b => Nat.le_total a.id b.id⟩

instance : IsTrans DiscordMessage msgIdLe := ⟨fun _ _ _ => Nat.le_trans⟩

def sortById (l : List DiscordMessage) : List DiscordMessage := List.insertionSort msgIdLe l

/-- The new messages of a channel run: all fetched messages sorted
oldest-first and filtered to ids strictly above the stored cursor. -/
def newMessagesOf (env : ChannelEnv) (lastMessageId : Option Nat) : List DiscordMessage :=
  let sorted := sortById (fetchAllMessages env lastMessageId)
  match lastMessageId with
  | some l => sorted.filter (fun m => decide (l < m.id))
  | none => sorted

/-- The result of processing one channel. -/
structure ChannelResult where
  threadsCreated : Nat
  actions : List PlannedAction
  db : AutothreadDB
  ctx : RunCtxState
  extCalls : List ExtCall
deriving DecidableEq

/-- processChannel (logic.ts): fetch and order new messages, run the
cooldown check, process each new message, and finally persist the cursor
when the safely-processed marker is set and the mode persists state. -/
def processChannel (cfg : AutothreadConfig) (env : ChannelEnv) (pats : ContentPatterns)
    (channel : DiscordChannel) (db : AutothreadDB) (ctx : RunCtxState) (now : Int) : ChannelResult :=
  let lastMessageId := getLastMessageId db channel.id
  let newMessages := newMessagesOf env lastMessageId
  let ctx1 := { ctx with events := ctx.events ++
    [{ level := "debug", event := "channel_scanned", channelId := some channel.id }] }
  if newMessages = [] then
    let db1 := if cfg.mode ≠ ExecutionMode.plan then
        updateChannelState db now channel.id channel.name channel.topic none
      else db
    { threadsCreated := 0, actions := [], db := db1, ctx := ctx1, extCalls := [] }
  else
    let isQuietMode := hasQuietMode channel.topic
    if isChannelOnCooldown db now channel.id COOLDOWN_WINDOW_MS MAX_THREADS_PER_CHANNEL_PER_WINDOW then
      let ctx2 := { ctx1 with events := ctx1.events ++
        [{ level := "info", event := "channel_on_cooldown", channelId := some channel.id }] }
      let act : PlannedAction :=
        { actionType := .cooldown, channelId := channel.id, channelName := channel.name,
          reason := some ("Cooldown: " ++ toString MAX_THREADS_PER_CHANNEL_PER_WINDOW ++
            " threads in " ++ toString (Int.ediv COOLDOWN_WINDOW_MS 60000) ++ " min") }
      let db1 := if cfg.mode ≠ ExecutionMode.plan then
          updateChannelState db now channel.id channel.name channel.topic none
        else db
      { threadsCreated := 0, actions := [act], db := db1, ctx := ctx2, extCalls := [] }
    else
      let s0 : ChanState :=
        { db := db, ctx := ctx1, threadsCreated := 0, safeUpTo := lastMessageId,
          actions := [], extCalls := [] }
      let sF := processLoop cfg env pats channel now isQuietMode newMessages s0
      let dbF := if cfg.mode ≠ ExecutionMode.plan ∧ sF.safeUpTo.isSome = true then
          updateChannelState sF.db now channel.id channel.name channel.topic sF.safeUpTo
        else sF.db
      { threadsCreated := sF.threadsCreated, actions := sF.actions, db := dbF,
        ctx := sF.ctx, extCalls := sF.extCalls }

/-- The result of one poll pass over the guild. -/
structure PollResult where
  db : AutothreadDB
  ctx : RunCtxState
  actions : List PlannedAction
  extCalls : List ExtCall
deriving DecidableEq

/-- The channel loop of pollAndProcessMessages, including the per-run
thread cap check; our model of processChannel is total, so the per-channel
catch handler of the source is unreachable and elided. -/
def pollLoop (cfg : AutothreadConfig) (envOf : Nat → ChannelEnv) (pats : ContentPatterns)
    (now : Int) : List DiscordChannel →
    AutothreadDB → RunCtxState → List PlannedAction → List ExtCall → PollResult
  | [], db, ctx, acts, calls => { db := db, ctx := ctx, actions := acts, extCalls := calls }
  | ch :: rest, db, ctx, acts, calls =>
    if cfg.maxThreadsPerRun ≤ ctx.threadsCreatedThisRun then
      { db := db, ctx := ctx, actions := acts, extCalls := calls }
    else
      let r := processChannel cfg (envOf ch.id) pats ch db ctx now
      let ctx2 := { r.ctx with
        threadsCreatedThisRun := r.ctx.threadsCreatedThisRun + r.threadsCreated }
      pollLoop cfg envOf pats now rest r.db ctx2 (acts ++ r.actions) (calls ++ r.extCalls)

/-- pollAndProcessMessages (logic.ts): select eligible text channels by
the opt-in tag, apply the allowlist and the per-run channel cap, then
process each selected channel under the per-run thread cap. -/
def pollAndProcessMessages (cfg : AutothreadConfig) (envOf : Nat → ChannelEnv)
    (pats : ContentPatterns) (guildChannels : List DiscordChannel)
    (db : AutothreadDB) (ctx : RunCtxState) (now : Int) : PollResult :=
  let textChannels := guildChannels.filter (fun ch => ch.typeId == 0)
  let tagged := textChannels.filter (fun ch => hasAutothreadTag ch.topic)
  if tagged = [] then
    { db := db,
      ctx := { ctx with events := ctx.events ++
        [{ level := "info", event := "no_autothread_channels" }] },
      actions := [], extCalls := [] }
  else
    let allowed := match cfg.channelAllowlist with
      | some allow => tagged.filter (fun ch : DiscordChannel => allow.contains ch.id)
      | none => tagged
    let selected := allowed.take cfg.maxChannelsPerRun
    let ctx1 := { ctx with events := ctx.events ++
      [{ level := "info", event := "poll_started" }] }
    if selected = [] then { db := db, ctx := ctx1, actions := [], extCalls := [] }
    else pollLoop cfg envOf pats now selected db ctx1 [] []

/-! ### Concrete instances used to evaluate the model -/

/-- Content patterns whose three shape regexes match nothing. -/
def patsNone : ContentPatterns :=
  { emojiOnly := fun _ => false, linkOnly := fun _ => false, mentionOnly := fun _ => false }

def adbEmpty : AutothreadDB := { channels := [], processed := [], stats := [] }

def runCtx0 : RunCtxState :=
  { threadsCreatedThisRun := 0, errorsThisRun := 0, lastError := none, events := [] }

def chanGeneral : DiscordChannel :=
  { id := 1, typeId := 0, name := "general", topic := some "[autothread]" }

def cfgLiveW : AutothreadConfig :=
  { mode := .live, enableAI := false, channelAllowlist := none,
    maxChannelsPerRun := 3, maxThreadsPerRun := 5 }

def cfgDryW : AutothreadConfig := { cfgLiveW with mode := .dry_run }

def cfgPlanW : AutothreadConfig := { cfgLiveW with mode := .plan }

/-- A gate-passing human message. -/
def msgHello : DiscordMessage :=
  { id := 5, author := { username := "alice", bot := false },
    content := "hello world message", timestamp := 0, thread := none }

/-- A channel listing with the single message msgHello on the first page. -/
def envSingleMsg : ChannelEnv :=
  { getMessages := fun before => match before with | none => [msgHello] | some _ => [],
    threadOutcome := fun _ _ => .ok "thread9",
    aiOutcome := fun _ => none }

/-- A processed table that already holds the composite key (1, 5). -/
def adbExistingRow : AutothreadDB :=
  { channels := [],
    processed := [{ channelId := 1, messageId := 5, threadId := none,
                    status := .created, error := none, processedAt := 0 }],
    stats := [] }

def stateExistingRow : ChanState :=
  { db := adbExistingRow, ctx := runCtx0, threadsCreated := 0, safeUpTo := none,
    actions := [], extCalls := [] }

def stateEmptyDb : ChanState :=
  { db := adbEmpty, ctx := runCtx0, threadsCreated := 0, safeUpTo := none,
    actions := [], extCalls := [] }

/-- A listing whose creation call fails with Discord code 160004. -/
def envAlreadyExists : ChannelEnv :=
  { getMessages := fun before => match before with | none => [msgHello] | some _ => [],
    threadOutcome := fun _ _ => .error (.discordApi 400 (some 160004)),
    aiOutcome := fun _ => none }

/-- Three created rows for channel 1 within the trailing cooldown window
of the instant 1000000. -/
def adbThreeCreated : AutothreadDB :=
  { channels := [],
    processed :=
      [{ channelId := 1, messageId := 1, threadId := some "t1",
         status := .created, error := none, processedAt := 999000 },
       { channelId := 1, messageId := 2, threadId := some "t2",
         status := .created, error := none, processedAt := 999100 },
       { channelId := 1, messageId := 3, threadId := some "t3",
         status := .created, error := none, processedAt := 999200 }],
    stats := [] }

/-- A message whose sanitized content is empty and whose author name has
74 characters. -/
def msgLongAuthor : DiscordMessage :=
  { id := 9, author := { username := String.mk (List.replicate 74 'a'), bot := false },
    content := "", timestamp := 0, thread := none }

def rlStoreAB : RateLimitStore :=
  fun k => if k = "A" then some { request_times := .jsonArray [0, 1000], updated_at := 1000 } else none

def rlStoreCorrupt : RateLimitStore :=
  fun k => if k = "B" then some { request_times := .corruptJson, updated_at := 5 } else none

/-- The status set named by the cursor claim: skipped, created, error. -/
def claimTerminalStatus : MessageStatus → Bool
  | .skipped => true
  | .created => true
  | .error => true
  | _ => false

/-- The statuses that actually terminate a claim in a persisting run:
the claim's set plus the dry-run simulation status. -/
def terminalStatus : MessageStatus → Bool
  | .skipped => true
  | .created => true
  | .error => true
  | .dry_run => true
  | _ => false

/-- Cursor comparison: a missing old cursor is below everything; a
present cursor must not decrease. -/
def cursorLe : Option Nat → Option Nat → Prop
  | none, _ => True
  | some a, some b => a ≤ b
  | some _, none => False

instance : ∀ a b, Decidable (cursorLe a b)
  | none, _ => isTrue trivial
  | some a, some b => Nat.decLe a b
  | some _, none => isFalse (fun h => h)

/-- A lower bound below every id of a message list. -/
def optLt : Option Nat → Nat → Prop
  | none, _ => True
  | some l, i => l < i

instance : ∀ a i, Decidable (optLt a i)
  | none, _ => isTrue trivial
  | some l, i => Nat.decLt l i

/-! ## Generic list lemmas -/

theorem find?_append_of_none {α : Type} (p : α → Bool) (l₁ l₂ : List α)
    (h : l₁.find? p = none) : (l₁ ++ l₂).find? p = l₂.find? p := by
  induction l₁ with
  | nil => rfl
  | cons a tl ih =>
    have hpa : p a = false := by
      cases hpa : p a
      · rfl
      · rw [List.find?_cons_of_pos tl hpa] at h
        cases h
    have hna : ¬ p a = true := by simp [hpa]
    rw [List.find?_cons_of_neg tl hna] at h
    rw [List.cons_append, List.find?_cons_of_neg (tl ++ l₂) hna]
    exact ih h

theorem find?_append_of_some {α : Type} (p : α → Bool) (l₁ l₂ : List α) (a : α)
    (h : l₁.find? p = some a) : (l₁ ++ l₂).find? p = some a := by
  induction l₁ with
  | nil => cases h
  | cons b tl ih =>
    cases hpb : p b with
    | false =>
      have hnb : ¬ p b = true := by simp [hpb]
      rw [List.find?_cons_of_neg tl hnb] at h
      rw [List.cons_append, List.find?_cons_of_neg (tl ++ l₂) hnb]
      exact ih h
    | true =>
      rw [List.find?_cons_of_pos tl hpb] at h
      rw [List.cons_append, List.find?_cons_of_pos (tl ++ l₂) hpb]
      exact h

theorem find?_map_if {α : Type} (l : List α) (q : α → Bool) (g : α → α)
    (hg : ∀ a, q (g a) = q a) :
    (l.map (fun a => if q a then g a else a)).find? q = (l.find? q).map g := by
  induction l with
  | nil => rfl
  | cons a tl ih =>
    by_cases hqa : q a = true
    · have hga : q (g a) = true := by rw [hg]; exact hqa
      rw [List.map_cons, if_pos hqa, List.find?_cons_of_pos _ hga, List.find?_cons_of_pos _ hqa]
      rfl
    · rw [List.map_cons, if_neg hqa, List.find?_cons_of_neg _ hqa, List.find?_cons_of_neg _ hqa]
      exact ih

theorem find?_map_invariant {α : Type} (l : List α) (q : α → Bool) (φ : α → α)
    (h1 : ∀ a, q (φ a) = q a) (h2 : ∀ a, q a = true → φ a = a) :
    (l.map φ).find? q = l.find? q := by
  induction l with
  | nil => rfl
  | cons a tl ih =>
    by_cases hqa : q a = true
    · rw [List.map_cons, List.find?_cons_of_pos _ (by rw [h1]; exact hqa),
        List.find?_cons_of_pos _ hqa, h2 a hqa]
    · rw [List.map_cons, List.find?_cons_of_neg _ (by rw [h1]; exact hqa),
        List.find?_cons_of_neg _ hqa, ih]

theorem sorted_headD_le {trace : List Int} (h : trace.Sorted (· ≤ ·)) :
    ∀ t ∈ trace, trace.headD 0 ≤ t := by
  cases trace with
  | nil => intro t ht; cases ht
  | cons a l =>
    intro t ht
    rcases List.mem_cons.mp ht with rfl | hmem
    · exact le_refl t
    · exact (List.sorted_cons.mp h).1 t hmem

/-! ## Rate limiter lemmas -/

theorem checkWithTransaction_reject (cfg : RateLimiterConfig) (store : RateLimitStore)
    (key : String) (now : Int)
    (h : cfg.maxRequests ≤ (recentOf cfg store key now).length) :
    checkWithTransaction cfg store key now =
      ({ allowed := false,
         retryAfterSeconds :=
           some (max 1 (jsCeilDiv (((recentOf cfg store key now).min?).getD 0 + windowMsOf cfg - now) 1000)) },
       fun k => if k = key then (store key).map (fun row => { row with updated_at := now }) else store k) := by
  unfold checkWithTransaction
  rw [if_pos h]

theorem checkWithTransaction_allow (cfg : RateLimiterConfig) (store : RateLimitStore)
    (key : String) (now : Int)
    (h : ¬ cfg.maxRequests ≤ (recentOf cfg store key now).length) :
    checkWithTransaction cfg store key now =
      ({ allowed := true, retryAfterSeconds := none },
       fun k => if k = key then
           some { request_times := .jsonArray (recentOf cfg store key now ++ [now]), updated_at := now }
         else store k) := by
  unfold checkWithTransaction
  rw [if_neg h]

theorem storeTimes_after_reject (cfg : RateLimiterConfig) (store : RateLimitStore)
    (key : String) (now : Int)
    (h : cfg.maxRequests ≤ (recentOf cfg store key now).length) :
    storeTimes (checkWithTransaction cfg store key now).2 key = storeTimes store key := by
  rw [checkWithTransaction_reject cfg store key now h]
  unfold storeTimes
  cases hrow : store key with
  | none => simp [hrow]
  | some row => simp [hrow]

theorem storeTimes_after_allow (cfg : RateLimiterConfig) (store : RateLimitStore)
    (key : String) (now : Int)
    (h : ¬ cfg.maxRequests ≤ (recentOf cfg store key now).length) :
    storeTimes (checkWithTransaction cfg store key now).2 key =
      recentOf cfg store key now ++ [now] := by
  rw [checkWithTransaction_allow cfg store key now h]
  unfold storeTimes
  simp [parseStoredTimes]

theorem runChecks_nil (cfg : RateLimiterConfig) (key : String) (store : RateLimitStore) :
    runChecks cfg key store [] = [] := rfl

theorem runChecks_cons (cfg : RateLimiterConfig) (key : String) (store : RateLimitStore)
    (t : Int) (ts : List Int) :
    runChecks cfg key store (t :: ts) =
      (t, (checkWithTransaction cfg store key t).1) ::
        runChecks cfg key (checkWithTransaction cfg store key t).2 ts := rfl

theorem allowedTimes_nil : allowedTimes [] = [] := rfl

theorem allowedTimes_cons_of_false {r : RateLimitResult} (t : Int)
    (rest : List (Int × RateLimitResult)) (h : r.allowed = false) :
    allowedTimes ((t, r) :: rest) = allowedTimes rest := by
  simp [allowedTimes, h]

theorem allowedTimes_cons_of_true {r : RateLimitResult} (t : Int)
    (rest : List (Int × RateLimitResult)) (h : r.allowed = true) :
    allowedTimes ((t, r) :: rest) = t :: allowedTimes rest := by
  simp [allowedTimes, h]

/-- The inductive invariant behind the sliding-window bound: A is the
list of allowed-call instants so far, tcur a lower bound of the remaining
trace instants, and the stored window dominates A on every suffix of the
timeline that the window can still see. -/
theorem runChecks_count_bound (cfg : RateLimiterConfig) (key : String) :
    ∀ (trace : List Int) (store : RateLimitStore) (A : List Int) (tcur : Int),
      trace.Sorted (· ≤ ·) →
      (∀ t ∈ trace, tcur ≤ t) →
      (∀ T : Int, A.countP (inWindow (windowMsOf cfg) T) ≤ cfg.maxRequests) →
      (∀ s : Int, tcur - windowMsOf cfg ≤ s →
        A.countP (fun t => decide (s ≤ t)) ≤
          (storeTimes store key).countP (fun t => decide (s ≤ t))) →
      (∀ t ∈ A, t ≤ tcur) →
      ∀ T : Int,
        (A ++ allowedTimes (runChecks cfg key store trace)).countP (inWindow (windowMsOf cfg) T)
          ≤ cfg.maxRequests := by
  intro trace
  induction trace with
  | nil =>
    intro store A tcur _ _ H0 _ _ T
    rw [runChecks_nil, allowedTimes_nil, List.append_nil]
    exact H0 T
  | cons t0 ts ih =>
    intro store A tcur hsorted hlb H0 H1 H2 T
    have hts : ts.Sorted (· ≤ ·) := (List.sorted_cons.mp hsorted).2
    have hhead : ∀ t ∈ ts, t0 ≤ t := (List.sorted_cons.mp hsorted).1
    have htcur : tcur ≤ t0 := hlb t0 (List.mem_cons_self t0 ts)
    rw [runChecks_cons]
    by_cases hge : cfg.maxRequests ≤ (recentOf cfg store key t0).length
    · have hall : ((checkWithTransaction cfg store key t0).1).allowed = false := by
        rw [checkWithTransaction_reject cfg store key t0 hge]
      rw [allowedTimes_cons_of_false t0 _ hall]
      refine ih (checkWithTransaction cfg store key t0).2 A t0 hts hhead H0 ?_ ?_ T
      · intro s hs
        rw [storeTimes_after_reject cfg store key t0 hge]
        exact H1 s (by omega)
      · intro t ht
        exact le_trans (H2 t ht) htcur
    · have hall : ((checkWithTransaction cfg store key t0).1).allowed = true := by
        rw [checkWithTransaction_allow cfg store key t0 hge]
      rw [allowedTimes_cons_of_true t0 _ hall]
      have hrearr : A ++ t0 :: allowedTimes (runChecks cfg key (checkWithTransaction cfg store key t0).2 ts)
          = (A ++ [t0]) ++ allowedTimes (runChecks cfg key (checkWithTransaction cfg store key t0).2 ts) := by
        simp
      rw [hrearr]
      have hlen : (recentOf cfg store key t0).length < cfg.maxRequests := Nat.not_le.mp hge
      refine ih (checkWithTransaction cfg store key t0).2 (A ++ [t0]) t0 hts hhead ?_ ?_ ?_ T
      · intro T2
        rw [List.countP_append]
        by_cases hw : inWindow (windowMsOf cfg) T2 t0 = true
        · have hw2 : T2 - windowMsOf cfg ≤ t0 ∧ t0 ≤ T2 := by
            simpa [inWindow] using hw
          have c1 : A.countP (inWindow (windowMsOf cfg) T2) ≤
              A.countP (fun t => decide (T2 - windowMsOf cfg ≤ t)) := by
            refine List.countP_mono_left ?_
            intro x _ hpx
            simp only [inWindow, Bool.and_eq_true, decide_eq_true_eq] at hpx
            simp only [decide_eq_true_eq]
            exact hpx.1
          have c2 : A.countP (fun t => decide (T2 - windowMsOf cfg ≤ t)) ≤
              (storeTimes store key).countP (fun t => decide (T2 - windowMsOf cfg ≤ t)) := by
            refine H1 (T2 - windowMsOf cfg) ?_
            have := hw2.2
            omega
          have c3 : (storeTimes store key).countP (fun t => decide (T2 - windowMsOf cfg ≤ t)) ≤
              (storeTimes store key).countP (fun t => decide (t0 - windowMsOf cfg ≤ t)) := by
            refine List.countP_mono_left ?_
            intro x _ hpx
            simp only [decide_eq_true_eq] at hpx
            simp only [decide_eq_true_eq]
            have := hw2.2
            omega
          have c4 : (storeTimes store key).countP (fun t => decide (t0 - windowMsOf cfg ≤ t)) =
              (recentOf cfg store key t0).length := by
            rw [recentOf, List.countP_eq_length_filter]
          have hsing : List.countP (inWindow (windowMsOf cfg) T2) [t0] = 1 := by
            simp [hw]
          omega
        · have hw' : inWindow (windowMsOf cfg) T2 t0 = false := by
            revert hw
            cases inWindow (windowMsOf cfg) T2 t0 <;> simp
          have hsing : List.countP (inWindow (windowMsOf cfg) T2) [t0] = 0 := by
            simp [hw']
          have := H0 T2
          omega
      · intro s hs
        rw [storeTimes_after_allow cfg store key t0 hge]
        rw [List.countP_append, List.countP_append]
        have h1 : A.countP (fun t => decide (s ≤ t)) ≤
            (storeTimes store key).countP (fun t => decide (s ≤ t)) := by
          refine H1 s ?_
          omega
        have h2 : (storeTimes store key).countP (fun t => decide (s ≤ t)) ≤
            (recentOf cfg store key t0).countP (fun t => decide (s ≤ t)) := by
          rw [recentOf, List.countP_filter]
          refine List.countP_mono_left ?_
          intro x _ hpx
          simp only [decide_eq_true_eq] at hpx
          simp only [Bool.and_eq_true, decide_eq_true_eq]
          exact ⟨hpx, by omega⟩
        omega
      · intro t ht
        rcases List.mem_append.mp ht with hmem | hmem
        · exact le_trans (H2 t hmem) htcur
        · have : t = t0 := List.mem_singleton.mp hmem
          omega

/-- C1: for every key with fresh stored state and every nondecreasing
sequence of check instants under a fixed configuration, at no point do
more than maxRequests allowed calls have instants inside any trailing
window of windowSeconds seconds; and a rejected call leaves the stored
request_times value of the key unchanged. -/
theorem rateLimiter_sliding_window_invariant (cfg : RateLimiterConfig) (key : String)
    (store : RateLimitStore) (trace : List Int) (T : Int)
    (store2 : RateLimitStore) (t2 : Int)
    (_hfresh : store key = none) (hsorted : trace.Sorted (· ≤ ·)) :
    (allowedTimes (runChecks cfg key store trace)).countP (inWindow (windowMsOf cfg) T)
        ≤ cfg.maxRequests
    ∧ ((checkWithTransaction cfg store2 key t2).1.allowed = false →
        requestTimesVal (checkWithTransaction cfg store2 key t2).2 key = requestTimesVal store2 key) := by
  constructor
  · have h := runChecks_count_bound cfg key trace store [] (trace.headD 0) hsorted
      (sorted_headD_le hsorted) (fun T2 => by simp)
      (fun s _ => by simp) (fun t ht => absurd ht (List.not_mem_nil t)) T
    simpa using h
  · intro hrej
    by_cases hge : cfg.maxRequests ≤ (recentOf cfg store2 key t2).length
    · rw [checkWithTransaction_reject cfg store2 key t2 hge]
      unfold requestTimesVal
      cases hrow : store2 key with
      | none => simp [hrow]
      | some row => simp [hrow]
    · exfalso
      rw [checkWithTransaction_allow cfg store2 key t2 hge] at hrej
      simp at hrej

/-- C1 witness: two requests allowed and a third rejected within one
minute under maxRequests 2. -/
theorem rateLimiter_sliding_window_invariant_witness :
    ((fun _ : String => (none : Option RateLimitRow)) "A" = none)
    ∧ ([(0 : Int), 1000, 2000].Sorted (· ≤ ·))
    ∧ ((allowedTimes (runChecks { maxRequests := 2, windowSeconds := 60 } "A"
          (fun _ => none) [0, 1000, 2000])).countP
            (inWindow (windowMsOf { maxRequests := 2, windowSeconds := 60 }) 60000)
          ≤ 2
        ∧ ((checkWithTransaction { maxRequests := 2, windowSeconds := 60 }
              (fun _ => none) "A" 0).1.allowed = false →
            requestTimesVal (checkWithTransaction { maxRequests := 2, windowSeconds := 60 }
              (fun _ => none) "A" 0).2 "A" =
              requestTimesVal (fun _ => none) "A")) :=
  ⟨rfl, by decide,
    rateLimiter_sliding_window_invariant { maxRequests := 2, windowSeconds := 60 } "A"
      (fun _ => none) [0, 1000, 2000] 60000 (fun _ => none) 0 rfl (by decide)⟩

theorem checkAttemptLoop_fails_open (cfg : RateLimiterConfig)
    (attemptOutcome : Nat → Except JsErr RateLimitResult)
    (herr : ∀ i, (attemptOutcome i).isOk = false) :
    ∀ (fuel attempt : Nat),
      checkAttemptLoop cfg attemptOutcome attempt fuel =
        { allowed := true, retryAfterSeconds := none } := by
  intro fuel
  induction fuel with
  | zero => intro attempt; rfl
  | succ n ih =>
    intro attempt
    unfold checkAttemptLoop
    cases h : attemptOutcome attempt with
    | ok r =>
      have hh := herr attempt
      rw [h] at hh
      simp [Except.isOk, Except.toBool] at hh
    | error e =>
      show (if (isSqliteBusyError e && decide (attempt < cfg.maxRetries)) = true then
          checkAttemptLoop cfg attemptOutcome (attempt + 1) n
        else { allowed := true, retryAfterSeconds := none }) =
        { allowed := true, retryAfterSeconds := none }
      by_cases hb : (isSqliteBusyError e && decide (attempt < cfg.maxRetries)) = true
      · rw [if_pos hb]
        exact ih (attempt + 1)
      · rw [if_neg hb]

/-- C4: when every transactional attempt throws, RateLimiter.check
returns allowed true with no retryAfterSeconds instead of propagating
the error: the bounded retry loop fails open. -/
theorem check_fails_open (cfg : RateLimiterConfig)
    (attemptOutcome : Nat → Except JsErr RateLimitResult)
    (herr : ∀ i, (attemptOutcome i).isOk = false) :
    rateLimiterCheck cfg attemptOutcome = { allowed := true, retryAfterSeconds := none } :=
  checkAttemptLoop_fails_open cfg attemptOutcome herr (cfg.maxRetries + 1) 0

/-- C4 witness: every attempt throws a busy error; check fails open. -/
theorem check_fails_open_witness :
    rateLimiterCheck { maxRequests := 10, windowSeconds := 900 }
        (fun _ => Except.error (JsErr.plainError "database is locked")) =
      { allowed := true, retryAfterSeconds := none } :=
  check_fails_open { maxRequests := 10, windowSeconds := 900 }
    (fun _ => Except.error (JsErr.plainError "database is locked")) (fun _ => rfl)

/-- C5: when the filtered recent count reaches maxRequests, the call is
rejected with retryAfterSeconds the ceiling of the time until the oldest
recent timestamp leaves the window, floored at one second, and the stored
request_times value of the key is not changed. -/
theorem check_reject_retry_after (cfg : RateLimiterConfig) (store : RateLimitStore)
    (key : String) (now m : Int)
    (hcount : cfg.maxRequests ≤ (recentOf cfg store key now).length)
    (hmin : (recentOf cfg store key now).min? = some m) :
    (checkWithTransaction cfg store key now).1 =
      { allowed := false,
        retryAfterSeconds := some (max 1 (jsCeilDiv (m + windowMsOf cfg - now) 1000)) }
    ∧ requestTimesVal (checkWithTransaction cfg store key now).2 key =
        requestTimesVal store key := by
  rw [checkWithTransaction_reject cfg store key now hcount]
  constructor
  · simp [hmin]
  · unfold requestTimesVal
    cases hrow : store key with
    | none => simp [hrow]
    | some row => simp [hrow]

/-- C5 witness: key with recent instants 0 and 1000, checked at 2000
under maxRequests 2 and a 60 second window: rejected with
retryAfterSeconds 58 and no change to the stored value. -/
theorem check_reject_retry_after_witness :
    (2 ≤ (recentOf { maxRequests := 2, windowSeconds := 60 } rlStoreAB "A" 2000).length)
    ∧ ((recentOf { maxRequests := 2, windowSeconds := 60 } rlStoreAB "A" 2000).min? = some 0)
    ∧ ((checkWithTransaction { maxRequests := 2, windowSeconds := 60 } rlStoreAB "A" 2000).1 =
        { allowed := false,
          retryAfterSeconds :=
            some (max 1 (jsCeilDiv (0 + windowMsOf { maxRequests := 2, windowSeconds := 60 } - 2000) 1000)) }
      ∧ requestTimesVal (checkWithTransaction { maxRequests := 2, windowSeconds := 60 }
          rlStoreAB "A" 2000).2 "A" = requestTimesVal rlStoreAB "A") :=
  ⟨by decide, by decide,
    check_reject_retry_after { maxRequests := 2, windowSeconds := 60 } rlStoreAB "A" 2000 0
      (by decide) (by decide)⟩

/-- C8: a stored request_times value that does not parse as a JSON array
is treated as an empty window for that key only: the call is allowed and
the stored state becomes a fresh single-entry window holding the current
instant; every other key is untouched. -/
theorem corrupt_state_resets_window (cfg : RateLimiterConfig) (store : RateLimitStore)
    (key k2 : String) (now : Int) (row : RateLimitRow)
    (hrow : store key = some row)
    (hbad : row.request_times = .corruptJson ∨ row.request_times = .jsonNonArray)
    (hpos : 0 < cfg.maxRequests)
    (hk2 : k2 ≠ key) :
    (checkWithTransaction cfg store key now).1 = { allowed := true, retryAfterSeconds := none }
    ∧ (checkWithTransaction cfg store key now).2 key =
        some { request_times := .jsonArray [now], updated_at := now }
    ∧ (checkWithTransaction cfg store key now).2 k2 = store k2 := by
  have hempty : storeTimes store key = [] := by
    unfold storeTimes
    rw [hrow]
    show parseStoredTimes row.request_times = []
    rcases hbad with h | h <;> simp [h, parseStoredTimes]
  have hrecent : recentOf cfg store key now = [] := by
    unfold recentOf
    rw [hempty]
    simp
  have hnot : ¬ cfg.maxRequests ≤ (recentOf cfg store key now).length := by
    rw [hrecent]
    intro hc
    simp at hc
    omega
  rw [checkWithTransaction_allow cfg store key now hnot]
  refine ⟨rfl, ?_, ?_⟩
  · simp [hrecent]
  · simp [hk2]

/-- C8 witness: corrupt JSON stored for key B; a check at instant 7
allows, overwrites key B with the single-entry window, and leaves key A
alone. -/
theorem corrupt_state_resets_window_witness :
    (rlStoreCorrupt "B" = some { request_times := .corruptJson, updated_at := 5 })
    ∧ ((checkWithTransaction { maxRequests := 10, windowSeconds := 900 } rlStoreCorrupt "B" 7).1 =
        { allowed := true, retryAfterSeconds := none }
      ∧ (checkWithTransaction { maxRequests := 10, windowSeconds := 900 } rlStoreCorrupt "B" 7).2 "B" =
          some { request_times := .jsonArray [7], updated_at := 7 }
      ∧ (checkWithTransaction { maxRequests := 10, windowSeconds := 900 } rlStoreCorrupt "B" 7).2 "A" =
          rlStoreCorrupt "A") :=
  ⟨rfl,
    corrupt_state_resets_window { maxRequests := 10, windowSeconds := 900 } rlStoreCorrupt
      "B" "A" 7 { request_times := .corruptJson, updated_at := 5 }
      rfl (Or.inl rfl) (by decide) (by decide)⟩

/-! ## Autothread store lemmas -/

theorem tryClaim_collision (db : AutothreadDB) (now : Int) (cid mid : Nat)
    (status : MessageStatus) (h : (lookupProcessed db cid mid).isSome = true) :
    tryClaimMessage db now cid mid status = (false, db) := by
  unfold tryClaimMessage
  rw [if_pos h]

theorem lookupProcessed_tryClaim_self (db : AutothreadDB) (now : Int) (cid mid : Nat)
    (status : MessageStatus) :
    (lookupProcessed (tryClaimMessage db now cid mid status).2 cid mid).isSome = true := by
  unfold tryClaimMessage
  by_cases h : (lookupProcessed db cid mid).isSome = true
  · rw [if_pos h]
    exact h
  · rw [if_neg h]
    have hnone : db.processed.find? (procKeyMatch cid mid) = none := by
      unfold lookupProcessed at h
      cases hf : db.processed.find? (procKeyMatch cid mid)
      · rfl
      · rw [hf] at h
        simp at h
    show ((db.processed ++ [claimRow now cid mid status]).find? (procKeyMatch cid mid)).isSome = true
    rw [find?_append_of_none _ _ _ hnone]
    simp [procKeyMatch, claimRow]

theorem lookupProcessed_tryClaim_found (db : AutothreadDB) (now : Int) (cid mid : Nat)
    (status : MessageStatus) (cid2 mid2 : Nat) (r : ProcRow)
    (h : lookupProcessed db cid2 mid2 = some r) :
    lookupProcessed (tryClaimMessage db now cid mid status).2 cid2 mid2 = some r := by
  unfold tryClaimMessage
  by_cases hc : (lookupProcessed db cid mid).isSome = true
  · rw [if_pos hc]
    exact h
  · rw [if_neg hc]
    show (db.processed ++ [claimRow now cid mid status]).find? (procKeyMatch cid2 mid2) = some r
    exact find?_append_of_some _ _ _ _ h

theorem lookupProcessed_tryClaim_new (db : AutothreadDB) (now : Int) (cid mid : Nat)
    (status : MessageStatus) (h : lookupProcessed db cid mid = none) :
    (tryClaimMessage db now cid mid status).1 = true
    ∧ (tryClaimMessage db now cid mid status).2.processed =
        db.processed ++ [claimRow now cid mid status]
    ∧ lookupProcessed (tryClaimMessage db now cid mid status).2 cid mid =
        some (claimRow now cid mid status) := by
  have hns : ¬ (lookupProcessed db cid mid).isSome = true := by simp [h]
  unfold tryClaimMessage
  rw [if_neg hns]
  refine ⟨rfl, rfl, ?_⟩
  show (db.processed ++ [claimRow now cid mid status]).find? (procKeyMatch cid mid) =
    some (claimRow now cid mid status)
  rw [find?_append_of_none _ _ _ h]
  simp [procKeyMatch, claimRow]

theorem lookupProcessed_tryClaim_cases (db : AutothreadDB) (now : Int) (cid mid : Nat)
    (status : MessageStatus) (cid2 mid2 : Nat) (r2 : ProcRow)
    (h : lookupProcessed (tryClaimMessage db now cid mid status).2 cid2 mid2 = some r2) :
    lookupProcessed db cid2 mid2 = some r2
    ∨ (cid2 = cid ∧ mid2 = mid ∧ r2 = claimRow now cid mid status) := by
  unfold tryClaimMessage at h
  by_cases hc : (lookupProcessed db cid mid).isSome = true
  · rw [if_pos hc] at h
    exact Or.inl h
  · rw [if_neg hc] at h
    have h2 : (db.processed ++ [claimRow now cid mid status]).find? (procKeyMatch cid2 mid2) =
        some r2 := h
    cases hf : db.processed.find? (procKeyMatch cid2 mid2) with
    | some r =>
      rw [find?_append_of_some _ _ _ _ hf] at h2
      injection h2 with h3
      subst h3
      exact Or.inl hf
    | none =>
      rw [find?_append_of_none _ _ _ hf] at h2
      by_cases hm : procKeyMatch cid2 mid2 (claimRow now cid mid status) = true
      · rw [List.find?_cons_of_pos _ hm] at h2
        injection h2 with h3
        have hk : cid = cid2 ∧ mid = mid2 := by
          unfold procKeyMatch claimRow at hm
          simp only [Bool.and_eq_true, beq_iff_eq] at hm
          exact hm
        exact Or.inr ⟨hk.1.symm, hk.2.symm, h3.symm⟩
      · rw [List.find?_cons_of_neg _ hm] at h2
        cases h2

theorem lookupProcessed_updateStatus_self (db : AutothreadDB) (now : Int) (cid mid : Nat)
    (status : MessageStatus) (tid : Option String) (er : Option String) (r : ProcRow)
    (h : lookupProcessed db cid mid = some r) :
    lookupProcessed (updateMessageStatus db now cid mid status tid er) cid mid =
      some { r with status := status, threadId := tid, error := er, processedAt := now } := by
  obtain ⟨chs, prs, sts⟩ := db
  unfold updateMessageStatus lookupProcessed
  dsimp only
  rw [find?_map_if prs (procKeyMatch cid mid)
    (fun r => { r with status := status, threadId := tid, error := er, processedAt := now })
    (fun a => rfl)]
  unfold lookupProcessed at h
  dsimp only at h
  rw [h]
  rfl

theorem lookupProcessed_updateStatus_other (db : AutothreadDB) (now : Int) (cid mid : Nat)
    (status : MessageStatus) (tid : Option String) (er : Option String) (cid2 mid2 : Nat)
    (h : ¬ (cid2 = cid ∧ mid2 = mid)) :
    lookupProcessed (updateMessageStatus db now cid mid status tid er) cid2 mid2 =
      lookupProcessed db cid2 mid2 := by
  obtain ⟨chs, prs, sts⟩ := db
  unfold updateMessageStatus lookupProcessed
  dsimp only
  refine find?_map_invariant _ _ _ ?_ ?_
  · intro a
    by_cases hp : procKeyMatch cid mid a = true
    · rw [if_pos hp]
      rfl
    · rw [if_neg hp]
  · intro a ha
    have hkey : a.channelId = cid2 ∧ a.messageId = mid2 := by
      unfold procKeyMatch at ha
      simp only [Bool.and_eq_true, beq_iff_eq] at ha
      exact ha
    have hpf : ¬ procKeyMatch cid mid a = true := by
      intro hc
      unfold procKeyMatch at hc
      simp only [Bool.and_eq_true, beq_iff_eq] at hc
      obtain ⟨h1, h2⟩ := hkey
      obtain ⟨h3, h4⟩ := hc
      exact h ⟨by omega, by omega⟩
    rw [if_neg hpf]

theorem lookupProcessed_recordThreadCreated (db : AutothreadDB) (now : Int) (cid : Nat)
    (cid2 mid2 : Nat) :
    lookupProcessed (recordThreadCreated db now cid) cid2 mid2 = lookupProcessed db cid2 mid2 := by
  unfold recordThreadCreated lookupProcessed
  split <;> rfl

theorem lookupProcessed_updateChannelState (db : AutothreadDB) (now : Int) (cid : Nat)
    (name : String) (topic : Option String) (lm : Option Nat) (cid2 mid2 : Nat) :
    lookupProcessed (updateChannelState db now cid name topic lm) cid2 mid2 =
      lookupProcessed db cid2 mid2 := by
  unfold updateChannelState lookupProcessed
  split <;> rfl

theorem channels_tryClaim (db : AutothreadDB) (now : Int) (cid mid : Nat)
    (status : MessageStatus) :
    (tryClaimMessage db now cid mid status).2.channels = db.channels := by
  unfold tryClaimMessage
  split <;> rfl

theorem channels_updateStatus (db : AutothreadDB) (now : Int) (cid mid : Nat)
    (status : MessageStatus) (tid : Option String) (er : Option String) :
    (updateMessageStatus db now cid mid status tid er).channels = db.channels := rfl

theorem channels_recordThreadCreated (db : AutothreadDB) (now : Int) (cid : Nat) :
    (recordThreadCreated db now cid).channels = db.channels := by
  unfold recordThreadCreated
  split <;> rfl

theorem processed_updateChannelState (db : AutothreadDB) (now : Int) (cid : Nat)
    (name : String) (topic : Option String) (lm : Option Nat) :
    (updateChannelState db now cid name topic lm).processed = db.processed := by
  unfold updateChannelState
  split <;> rfl

theorem stats_updateChannelState (db : AutothreadDB) (now : Int) (cid : Nat)
    (name : String) (topic : Option String) (lm : Option Nat) :
    (updateChannelState db now cid name topic lm).stats = db.stats := by
  unfold updateChannelState
  split <;> rfl

theorem getLastMessageId_congr (db db2 : AutothreadDB) (cid : Nat)
    (h : db.channels = db2.channels) :
    getLastMessageId db cid = getLastMessageId db2 cid := by
  unfold getLastMessageId
  rw [h]

theorem getLastMessageId_update_some (db : AutothreadDB) (now : Int) (cid : Nat)
    (name : String) (topic : Option String) (v : Nat) :
    getLastMessageId (updateChannelState db now cid name topic (some v)) cid = some v := by
  obtain ⟨chs, prs, sts⟩ := db
  unfold updateChannelState getLastMessageId
  dsimp only
  by_cases h : (chs.find? (fun r => r.channelId == cid)).isSome = true
  · rw [if_pos h]
    dsimp only
    rw [find?_map_if chs (fun r => r.channelId == cid)
      (fun r => { r with name := name, topic := topic, lastMessageId := some v, lastSeenAt := now })
      (fun a => rfl)]
    cases hf : chs.find? (fun r => r.channelId == cid) with
    | some row => rfl
    | none =>
      rw [hf] at h
      simp at h
  · rw [if_neg h]
    dsimp only
    have hnone : chs.find? (fun r => r.channelId == cid) = none := by
      cases hf : chs.find? (fun r => r.channelId == cid)
      · rfl
      · rw [hf] at h
        simp at h
    rw [find?_append_of_none _ _ _ hnone]
    simp

theorem getLastMessageId_update_none (db : AutothreadDB) (now : Int) (cid : Nat)
    (name : String) (topic : Option String) :
    getLastMessageId (updateChannelState db now cid name topic none) cid =
      getLastMessageId db cid := by
  obtain ⟨chs, prs, sts⟩ := db
  unfold updateChannelState getLastMessageId
  dsimp only
  by_cases h : (chs.find? (fun r => r.channelId == cid)).isSome = true
  · rw [if_pos h]
    dsimp only
    rw [find?_map_if chs (fun r => r.channelId == cid)
      (fun r => { r with name := name, topic := topic, lastMessageId := r.lastMessageId, lastSeenAt := now })
      (fun a => rfl)]
    cases hf : chs.find? (fun r => r.channelId == cid) with
    | some row => rfl
    | none => rfl
  · rw [if_neg h]
    dsimp only
    have hnone : chs.find? (fun r => r.channelId == cid) = none := by
      cases hf : chs.find? (fun r => r.channelId == cid)
      · rfl
      · rw [hf] at h
        simp at h
    rw [find?_append_of_none _ _ _ hnone, hnone]
    simp

/-! ## Per-message step lemmas -/

theorem processMessageStep_plan (cfg : AutothreadConfig) (env : ChannelEnv)
    (pats : ContentPatterns) (channel : DiscordChannel) (now : Int) (quiet : Bool)
    (s : ChanState) (msg : DiscordMessage) (hmode : cfg.mode = ExecutionMode.plan) :
    (processMessageStep cfg env pats channel now quiet s msg).db = s.db
    ∧ (processMessageStep cfg env pats channel now quiet s msg).extCalls = s.extCalls := by
  have hnotne : ¬ (cfg.mode ≠ ExecutionMode.plan) := by simp [hmode]
  by_cases hpass : (evaluateMessageGates pats msg).passed = true
  · simp only [processMessageStep, hpass, Bool.not_true, Bool.false_eq_true, if_false,
      if_pos hmode]
    constructor <;> trivial
  · have hfalse : (evaluateMessageGates pats msg).passed = false := by
      revert hpass
      cases (evaluateMessageGates pats msg).passed <;> simp
    simp only [processMessageStep, hfalse, Bool.not_false, if_true, if_neg hnotne]
    constructor <;> trivial

theorem processMessageStep_collision (cfg : AutothreadConfig) (env : ChannelEnv)
    (pats : ContentPatterns) (channel : DiscordChannel) (now : Int) (quiet : Bool)
    (s : ChanState) (msg : DiscordMessage)
    (hmode : cfg.mode ≠ ExecutionMode.plan)
    (hpass : (evaluateMessageGates pats msg).passed = true)
    (hcol : (lookupProcessed s.db channel.id msg.id).isSome = true) :
    processMessageStep cfg env pats channel now quiet s msg = { s with safeUpTo := some msg.id } := by
  simp only [processMessageStep, hpass, Bool.not_true, Bool.false_eq_true, if_false,
    if_neg hmode]
  rw [tryClaim_collision s.db now channel.id msg.id _ hcol]
  simp

theorem claim_only_facts (db0 : AutothreadDB) (now : Int) (cid mid : Nat)
    (status : MessageStatus) (hterm : terminalStatus status = true) :
    (lookupProcessed (tryClaimMessage db0 now cid mid status).2 cid mid).isSome = true
    ∧ (∀ mid0, (lookupProcessed db0 cid mid0).isSome = true →
        (lookupProcessed (tryClaimMessage db0 now cid mid status).2 cid mid0).isSome = true)
    ∧ (∀ mid0 r2, lookupProcessed (tryClaimMessage db0 now cid mid status).2 cid mid0 = some r2 →
        lookupProcessed db0 cid mid0 = some r2 ∨ terminalStatus r2.status = true)
    ∧ (tryClaimMessage db0 now cid mid status).2.channels = db0.channels := by
  refine ⟨lookupProcessed_tryClaim_self db0 now cid mid status, ?_, ?_, channels_tryClaim db0 now cid mid status⟩
  · intro mid0 h0
    obtain ⟨r, hr⟩ := Option.isSome_iff_exists.mp h0
    have h2 := lookupProcessed_tryClaim_found db0 now cid mid status cid mid0 r hr
    rw [h2]
    rfl
  · intro mid0 r2 h2
    rcases lookupProcessed_tryClaim_cases db0 now cid mid status cid mid0 r2 h2 with hl | ⟨_, _, hr⟩
    · exact Or.inl hl
    · right
      rw [hr]
      exact hterm

theorem claim_update_facts (db0 : AutothreadDB) (now now2 : Int) (cid mid : Nat)
    (claimStatus newStatus : MessageStatus) (tid : Option String) (er : Option String)
    (hterm : terminalStatus newStatus = true)
    (hnone : lookupProcessed db0 cid mid = none) :
    lookupProcessed
        (updateMessageStatus (tryClaimMessage db0 now cid mid claimStatus).2 now2 cid mid newStatus tid er)
        cid mid =
      some { claimRow now cid mid claimStatus with
             status := newStatus, threadId := tid, error := er, processedAt := now2 }
    ∧ (∀ mid0, (lookupProcessed db0 cid mid0).isSome = true →
        (lookupProcessed
            (updateMessageStatus (tryClaimMessage db0 now cid mid claimStatus).2 now2 cid mid newStatus tid er)
            cid mid0).isSome = true)
    ∧ (∀ mid0 r2,
        lookupProcessed
            (updateMessageStatus (tryClaimMessage db0 now cid mid claimStatus).2 now2 cid mid newStatus tid er)
            cid mid0 = some r2 →
        lookupProcessed db0 cid mid0 = some r2 ∨ terminalStatus r2.status = true)
    ∧ (updateMessageStatus (tryClaimMessage db0 now cid mid claimStatus).2 now2 cid mid newStatus tid er).channels =
        db0.channels := by
  obtain ⟨hc1, hc2, hc3⟩ := lookupProcessed_tryClaim_new db0 now cid mid claimStatus hnone
  have hself := lookupProcessed_updateStatus_self (tryClaimMessage db0 now cid mid claimStatus).2
    now2 cid mid newStatus tid er (claimRow now cid mid claimStatus) hc3
  refine ⟨hself, ?_, ?_, ?_⟩
  · intro mid0 h0
    by_cases hk : mid0 = mid
    · subst hk
      rw [hself]
      rfl
    · obtain ⟨r, hr⟩ := Option.isSome_iff_exists.mp h0
      have hfound := lookupProcessed_tryClaim_found db0 now cid mid claimStatus cid mid0 r hr
      have hother := lookupProcessed_updateStatus_other (tryClaimMessage db0 now cid mid claimStatus).2
        now2 cid mid newStatus tid er cid mid0 (fun hand => hk hand.2)
      rw [hother, hfound]
      rfl
  · intro mid0 r2 h2
    by_cases hk : mid0 = mid
    · subst hk
      rw [hself] at h2
      injection h2 with h3
      subst h3
      right
      exact hterm
    · have hother := lookupProcessed_updateStatus_other (tryClaimMessage db0 now cid mid claimStatus).2
        now2 cid mid newStatus tid er cid mid0 (fun hand => hk hand.2)
      rw [hother] at h2
      rcases lookupProcessed_tryClaim_cases db0 now cid mid claimStatus cid mid0 r2 h2 with hl | ⟨_, hm, _⟩
      · exact Or.inl hl
      · exact absurd hm hk
  · rw [channels_updateStatus, channels_tryClaim]

/-- In a persisting mode, every execution of the loop body leaves the
safely-processed marker at the message, leaves a stored row for the
message, never loses a stored row of the channel, only ever writes
terminal-statused rows (over the rows already present), and does not
touch the channels table. -/
theorem processMessageStep_facts (cfg : AutothreadConfig) (env : ChannelEnv)
    (pats : ContentPatterns) (channel : DiscordChannel) (now : Int) (quiet : Bool)
    (s : ChanState) (msg : DiscordMessage)
    (hmode : cfg.mode ≠ ExecutionMode.plan) :
    (processMessageStep cfg env pats channel now quiet s msg).safeUpTo = some msg.id
    ∧ (lookupProcessed (processMessageStep cfg env pats channel now quiet s msg).db
        channel.id msg.id).isSome = true
    ∧ (∀ mid0, (lookupProcessed s.db channel.id mid0).isSome = true →
        (lookupProcessed (processMessageStep cfg env pats channel now quiet s msg).db
          channel.id mid0).isSome = true)
    ∧ (∀ mid0 r2, lookupProcessed (processMessageStep cfg env pats channel now quiet s msg).db
          channel.id mid0 = some r2 →
        lookupProcessed s.db channel.id mid0 = some r2 ∨ terminalStatus r2.status = true)
    ∧ (processMessageStep cfg env pats channel now quiet s msg).db.channels = s.db.channels := by
  by_cases hpass : (evaluateMessageGates pats msg).passed = true
  · by_cases hcol : (lookupProcessed s.db channel.id msg.id).isSome = true
    · rw [processMessageStep_collision cfg env pats channel now quiet s msg hmode hpass hcol]
      exact ⟨rfl, hcol, fun mid0 h0 => h0, fun mid0 r2 h2 => Or.inl h2, rfl⟩
    · have hnone : lookupProcessed s.db channel.id msg.id = none :=
        Option.not_isSome_iff_eq_none.mp hcol
      by_cases hdry : cfg.mode = ExecutionMode.dry_run
      · obtain ⟨hc1, _, _⟩ := lookupProcessed_tryClaim_new s.db now channel.id msg.id .dry_run hnone
        obtain ⟨f1, f2, f3, f4⟩ := claim_only_facts s.db now channel.id msg.id .dry_run rfl
        simp only [processMessageStep, pushEvent, hpass, Bool.not_true, Bool.false_eq_true,
          if_false, if_neg hmode, if_pos hdry, hc1]
        refine ⟨by trivial, ?_, ?_, ?_, ?_⟩
        · exact f1
        · exact f2
        · exact f3
        · exact f4
      · obtain ⟨hc1, _, _⟩ := lookupProcessed_tryClaim_new s.db now channel.id msg.id .processing hnone
        simp only [processMessageStep, pushEvent, hpass, Bool.not_true, Bool.false_eq_true,
          if_false, if_neg hmode, if_neg hdry, hc1]
        cases houtcome : env.threadOutcome msg.id (chosenThreadName cfg env msg) with
        | ok threadId =>
          obtain ⟨f1, f2, f3, f4⟩ := claim_update_facts s.db now now channel.id msg.id
            .processing .created (some threadId) none rfl hnone
          by_cases hsum : (strTruthy (chosenSummary cfg env msg) && !quiet) = true
          · simp only [if_pos hsum]
            refine ⟨by trivial, ?_, ?_, ?_, ?_⟩
            · rw [lookupProcessed_recordThreadCreated, f1]
              rfl
            · intro mid0 h0
              rw [lookupProcessed_recordThreadCreated]
              exact f2 mid0 h0
            · intro mid0 r2 h2
              rw [lookupProcessed_recordThreadCreated] at h2
              exact f3 mid0 r2 h2
            · rw [channels_recordThreadCreated]
              exact f4
          · simp only [if_neg hsum]
            refine ⟨by trivial, ?_, ?_, ?_, ?_⟩
            · rw [lookupProcessed_recordThreadCreated, f1]
              rfl
            · intro mid0 h0
              rw [lookupProcessed_recordThreadCreated]
              exact f2 mid0 h0
            · intro mid0 r2 h2
              rw [lookupProcessed_recordThreadCreated] at h2
              exact f3 mid0 r2 h2
            · rw [channels_recordThreadCreated]
              exact f4
        | error e =>
          by_cases halready : isThreadAlreadyExistsError e = true
          · simp only [if_pos halready]
            obtain ⟨f1, f2, f3, f4⟩ := claim_update_facts s.db now now channel.id msg.id
              .processing .created none none rfl hnone
            refine ⟨by trivial, ?_, ?_, ?_, ?_⟩
            · rw [f1]
              rfl
            · exact f2
            · exact f3
            · exact f4
          · simp only [if_neg halready]
            obtain ⟨f1, f2, f3, f4⟩ := claim_update_facts s.db now now channel.id msg.id
              .processing .error none (some (jsErrMessage e)) rfl hnone
            refine ⟨by trivial, ?_, ?_, ?_, ?_⟩
            · rw [f1]
              rfl
            · exact f2
            · exact f3
            · exact f4
  · have hfalse : (evaluateMessageGates pats msg).passed = false := by
      revert hpass
      cases (evaluateMessageGates pats msg).passed <;> simp
    obtain ⟨f1, f2, f3, f4⟩ := claim_only_facts s.db now channel.id msg.id .skipped rfl
    simp only [processMessageStep, pushEvent, hfalse, Bool.not_false, if_true, if_pos hmode]
    refine ⟨by trivial, ?_, ?_, ?_, ?_⟩
    · exact f1
    · exact f2
    · exact f3
    · exact f4

/-- The loop invariant of the per-message loop in a persisting mode:
the safely-processed marker never drops below the stored cursor, rows are
only added (with terminal statuses) over what was present before the run,
the channels table is untouched, every remaining message at or below the
final marker has a stored row, and the final marker is either the old
cursor or a processed message with a stored row. -/
theorem processLoop_invariant (cfg : AutothreadConfig) (env : ChannelEnv) (pats : ContentPatterns)
    (channel : DiscordChannel) (now : Int) (quiet : Bool) (old : Option Nat) (db0 : AutothreadDB)
    (hmode : cfg.mode ≠ ExecutionMode.plan) :
    ∀ (rem : List DiscordMessage) (s : ChanState),
      rem.Pairwise msgIdLe →
      (∀ m ∈ rem, ∀ u, s.safeUpTo = some u → u ≤ m.id) →
      (∀ m ∈ rem, optLt old m.id) →
      cursorLe old s.safeUpTo →
      (∀ mid0 r, lookupProcessed s.db channel.id mid0 = some r →
        terminalStatus r.status = true ∨ (lookupProcessed db0 channel.id mid0).isSome = true) →
      (s.safeUpTo = old ∨ ∃ u, s.safeUpTo = some u ∧
        (lookupProcessed s.db channel.id u).isSome = true) →
      (cursorLe old (processLoop cfg env pats channel now quiet rem s).safeUpTo
      ∧ (∀ mid0 r, lookupProcessed (processLoop cfg env pats channel now quiet rem s).db
            channel.id mid0 = some r →
          terminalStatus r.status = true ∨ (lookupProcessed db0 channel.id mid0).isSome = true)
      ∧ (∀ m ∈ rem, ∀ u,
          (processLoop cfg env pats channel now quiet rem s).safeUpTo = some u → m.id ≤ u →
          (lookupProcessed (processLoop cfg env pats channel now quiet rem s).db
            channel.id m.id).isSome = true)
      ∧ (processLoop cfg env pats channel now quiet rem s).db.channels = s.db.channels
      ∧ ((processLoop cfg env pats channel now quiet rem s).safeUpTo = old
         ∨ ∃ u, (processLoop cfg env pats channel now quiet rem s).safeUpTo = some u
             ∧ (lookupProcessed (processLoop cfg env pats channel now quiet rem s).db
                 channel.id u).isSome = true)
      ∧ (∀ mid0, (lookupProcessed s.db channel.id mid0).isSome = true →
          (lookupProcessed (processLoop cfg env pats channel now quiet rem s).db
            channel.id mid0).isSome = true)) := by
  intro rem
  induction rem with
  | nil =>
    intro s _ _ _ hA1 hA4 hA5
    exact ⟨hA1, hA4, fun m hm => absurd hm (List.not_mem_nil m), rfl, hA5, fun _ h => h⟩
  | cons msg rest ih =>
    intro s hsorted hup hgt hA1 hA4 hA5
    simp only [processLoop]
    by_cases hcap : cfg.maxThreadsPerRun ≤ s.ctx.threadsCreatedThisRun + s.threadsCreated
    · rw [if_pos hcap]
      refine ⟨hA1, hA4, ?_, rfl, hA5, fun _ h => h⟩
      intro m hm u hu hle
      have hu' : s.safeUpTo = some u := hu
      rcases hA5 with h5 | ⟨u2, hu2, hrec⟩
      · exfalso
        have hou : old = some u := by rw [← h5]; exact hu'
        have hlt : u < m.id := by
          have h := hgt m hm
          rw [hou] at h
          exact h
        omega
      · have huu : u2 = u := by
          rw [hu2] at hu'
          injection hu'
        have hle2 : u2 ≤ m.id := hup m hm u2 hu2
        have heq : m.id = u2 := by omega
        show (lookupProcessed s.db channel.id m.id).isSome = true
        rw [heq]
        exact hrec
    · rw [if_neg hcap]
      obtain ⟨g1, g2, g3, g4, g5⟩ := processMessageStep_facts cfg env pats channel now quiet s msg hmode
      have hhd : ∀ m ∈ rest, msgIdLe msg m := (List.pairwise_cons.mp hsorted).1
      have hsorted' : rest.Pairwise msgIdLe := (List.pairwise_cons.mp hsorted).2
      have hup' : ∀ m ∈ rest, ∀ u,
          (processMessageStep cfg env pats channel now quiet s msg).safeUpTo = some u → u ≤ m.id := by
        intro m hm u hu
        rw [g1] at hu
        injection hu with h2
        rw [← h2]
        exact hhd m hm
      have hgt' : ∀ m ∈ rest, optLt old m.id := fun m hm => hgt m (List.mem_cons_of_mem _ hm)
      have hA1' : cursorLe old (processMessageStep cfg env pats channel now quiet s msg).safeUpTo := by
        rw [g1]
        cases hold : old with
        | none => trivial
        | some l =>
          have hlt : l < msg.id := by
            have h := hgt msg (List.mem_cons_self msg rest)
            rw [hold] at h
            exact h
          exact Nat.le_of_lt hlt
      have hA4' : ∀ mid0 r,
          lookupProcessed (processMessageStep cfg env pats channel now quiet s msg).db
            channel.id mid0 = some r →
          terminalStatus r.status = true ∨ (lookupProcessed db0 channel.id mid0).isSome = true := by
        intro mid0 r hr
        rcases g4 mid0 r hr with hprev | hterm
        · exact hA4 mid0 r hprev
        · exact Or.inl hterm
      have hA5' : (processMessageStep cfg env pats channel now quiet s msg).safeUpTo = old
          ∨ ∃ u, (processMessageStep cfg env pats channel now quiet s msg).safeUpTo = some u
              ∧ (lookupProcessed (processMessageStep cfg env pats channel now quiet s msg).db
                  channel.id u).isSome = true := Or.inr ⟨msg.id, g1, g2⟩
      obtain ⟨c1, c2, c3, c4, c5, c6⟩ :=
        ih (processMessageStep cfg env pats channel now quiet s msg)
          hsorted' hup' hgt' hA1' hA4' hA5'
      refine ⟨c1, c2, ?_, c4.trans g5, c5, ?_⟩
      · intro m hm u hu hle
        rcases List.mem_cons.mp hm with rfl | hmem
        · exact c6 m.id g2
        · exact c3 m hmem u hu hle
      · intro mid0 h0
        exact c6 mid0 (g3 mid0 h0)

/-! ## processChannel lemmas and claims -/

theorem newMessagesOf_sorted (env : ChannelEnv) (last : Option Nat) :
    (newMessagesOf env last).Pairwise msgIdLe := by
  unfold newMessagesOf sortById
  cases last with
  | none => exact List.sorted_insertionSort msgIdLe (fetchAllMessages env none)
  | some l =>
    exact List.Pairwise.sublist (List.filter_sublist _)
      (List.sorted_insertionSort msgIdLe (fetchAllMessages env (some l)))

theorem newMessagesOf_gt (env : ChannelEnv) (l : Nat) :
    ∀ m ∈ newMessagesOf env (some l), l < m.id := by
  intro m hm
  unfold newMessagesOf at hm
  have := List.of_mem_filter hm
  simpa using this

/-- C6: with the per-source creation cap reached inside the trailing
cooldown window and at least one new message pending, processChannel
skips the whole channel: no creation attempt, no gate outcome, no change
to the processed or stats tables, a single cooldown action, and (in the
persisting modes) the cursor and metadata bookkeeping still upserted. -/
theorem cooldown_skips_channel (cfg : AutothreadConfig) (env : ChannelEnv)
    (pats : ContentPatterns) (channel : DiscordChannel) (db : AutothreadDB)
    (ctx : RunCtxState) (now : Int)
    (hcool : MAX_THREADS_PER_CHANNEL_PER_WINDOW ≤
      createdInWindowCount db (now - COOLDOWN_WINDOW_MS) channel.id)
    (hnew : ¬ (newMessagesOf env (getLastMessageId db channel.id) = [])) :
    (processChannel cfg env pats channel db ctx now).threadsCreated = 0
    ∧ (processChannel cfg env pats channel db ctx now).actions =
        [{ actionType := .cooldown, channelId := channel.id, channelName := channel.name,
           reason := some ("Cooldown: " ++ toString MAX_THREADS_PER_CHANNEL_PER_WINDOW ++
             " threads in " ++ toString (Int.ediv COOLDOWN_WINDOW_MS 60000) ++ " min") }]
    ∧ (processChannel cfg env pats channel db ctx now).extCalls = []
    ∧ (processChannel cfg env pats channel db ctx now).db.processed = db.processed
    ∧ (processChannel cfg env pats channel db ctx now).db.stats = db.stats
    ∧ (cfg.mode ≠ ExecutionMode.plan → (processChannel cfg env pats channel db ctx now).db =
        updateChannelState db now channel.id channel.name channel.topic none)
    ∧ (cfg.mode = ExecutionMode.plan → (processChannel cfg env pats channel db ctx now).db = db) := by
  have hcoolB : isChannelOnCooldown db now channel.id COOLDOWN_WINDOW_MS
      MAX_THREADS_PER_CHANNEL_PER_WINDOW = true := by
    unfold isChannelOnCooldown
    exact decide_eq_true hcool
  by_cases hpm : cfg.mode = ExecutionMode.plan
  · have hnn : ¬ (cfg.mode ≠ ExecutionMode.plan) := by simp [hpm]
    simp only [processChannel, if_neg hnew, if_pos hcoolB, if_neg hnn]
    refine ⟨?_, ?_, ?_, ?_, ?_, ?_, ?_⟩ <;>
      first
        | trivial
        | (intro hc; trivial)
  · simp only [processChannel, if_neg hnew, if_pos hcoolB, if_pos hpm]
    refine ⟨?_, ?_, ?_, ?_, ?_, ?_, ?_⟩ <;>
      first
        | trivial
        | (intro hc; trivial)
        | exact processed_updateChannelState db now channel.id channel.name channel.topic none
        | exact stats_updateChannelState db now channel.id channel.name channel.topic none

/-- The main branch of processChannel: its store is the loop result,
optionally with the final cursor upsert, and the loop result satisfies
the loop invariants relative to the stored cursor. -/
theorem processChannel_main_facts (cfg : AutothreadConfig) (env : ChannelEnv)
    (pats : ContentPatterns) (channel : DiscordChannel) (db : AutothreadDB)
    (ctx : RunCtxState) (now : Int)
    (hmode : cfg.mode ≠ ExecutionMode.plan)
    (hempty : ¬ (newMessagesOf env (getLastMessageId db channel.id) = []))
    (hcool : ¬ (isChannelOnCooldown db now channel.id COOLDOWN_WINDOW_MS
      MAX_THREADS_PER_CHANNEL_PER_WINDOW = true)) :
    ∃ sF : ChanState,
      (processChannel cfg env pats channel db ctx now).db =
        (if cfg.mode ≠ ExecutionMode.plan ∧ sF.safeUpTo.isSome = true then
          updateChannelState sF.db now channel.id channel.name channel.topic sF.safeUpTo
        else sF.db)
      ∧ cursorLe (getLastMessageId db channel.id) sF.safeUpTo
      ∧ (∀ mid0 r, lookupProcessed sF.db channel.id mid0 = some r →
          terminalStatus r.status = true ∨ (lookupProcessed db channel.id mid0).isSome = true)
      ∧ (∀ m ∈ newMessagesOf env (getLastMessageId db channel.id), ∀ u,
          sF.safeUpTo = some u → m.id ≤ u →
          (lookupProcessed sF.db channel.id m.id).isSome = true)
      ∧ sF.db.channels = db.channels
      ∧ (sF.safeUpTo = getLastMessageId db channel.id
         ∨ ∃ u, sF.safeUpTo = some u ∧ (lookupProcessed sF.db channel.id u).isSome = true) := by
  refine ⟨processLoop cfg env pats channel now (hasQuietMode channel.topic)
    (newMessagesOf env (getLastMessageId db channel.id))
    { db := db,
      ctx := { ctx with events := ctx.events ++
        [{ level := "debug", event := "channel_scanned", channelId := some channel.id }] },
      threadsCreated := 0, safeUpTo := getLastMessageId db channel.id,
      actions := [], extCalls := [] }, ?_, ?_⟩
  · simp only [processChannel, if_neg hempty, if_neg hcool]
  · have hup0 : ∀ m ∈ newMessagesOf env (getLastMessageId db channel.id), ∀ u : Nat,
        getLastMessageId db channel.id = some u → u ≤ m.id := by
      intro m hm u hu
      cases hlast : getLastMessageId db channel.id with
      | none =>
        rw [hlast] at hu
        cases hu
      | some l =>
        rw [hlast] at hu hm
        injection hu with h2
        subst h2
        exact Nat.le_of_lt (newMessagesOf_gt env l m hm)
    have hgt0 : ∀ m ∈ newMessagesOf env (getLastMessageId db channel.id),
        optLt (getLastMessageId db channel.id) m.id := by
      intro m hm
      cases hlast : getLastMessageId db channel.id with
      | none => trivial
      | some l =>
        rw [hlast] at hm
        exact newMessagesOf_gt env l m hm
    have hA10 : cursorLe (getLastMessageId db channel.id) (getLastMessageId db channel.id) := by
      cases getLastMessageId db channel.id with
      | none => trivial
      | some l => exact Nat.le_refl l
    have h := processLoop_invariant cfg env pats channel now (hasQuietMode channel.topic)
      (getLastMessageId db channel.id) db hmode
      (newMessagesOf env (getLastMessageId db channel.id))
      { db := db,
        ctx := { ctx with events := ctx.events ++
          [{ level := "debug", event := "channel_scanned", channelId := some channel.id }] },
        threadsCreated := 0, safeUpTo := getLastMessageId db channel.id,
        actions := [], extCalls := [] }
      (newMessagesOf_sorted env (getLastMessageId db channel.id))
      hup0 hgt0 hA10
      (fun mid0 r hr => Or.inr (by rw [hr]; rfl))
      (Or.inl rfl)
    exact ⟨h.1, h.2.1, h.2.2.1, h.2.2.2.1, h.2.2.2.2.1⟩

/-- C3 counterexample: a dry-run execution advances the cursor past a
message whose stored record has status dry_run, which is not one of the
statuses the claim lists, and which did not collide with an existing
row. -/
theorem cursor_claim_dryrun_counterexample :
    getLastMessageId (processChannel cfgDryW envSingleMsg patsNone chanGeneral adbEmpty runCtx0 0).db 1 = some 5
    ∧ lookupProcessed (processChannel cfgDryW envSingleMsg patsNone chanGeneral adbEmpty runCtx0 0).db 1 5 =
        some { channelId := 1, messageId := 5, threadId := none,
               status := .dry_run, error := none, processedAt := 0 }
    ∧ claimTerminalStatus MessageStatus.dry_run = false
    ∧ lookupProcessed adbEmpty 1 5 = none := by
  refine ⟨by decide, by decide, by decide, by decide⟩

/-- C3 (amended): in the persisting modes, the stored cursor never moves
backward across a run, and every new message whose id is at or below the
final cursor has a stored ProcessedMessageRecord that is either in a
terminal status of the run (skipped, created, error, or the dry-run
simulation status) or collided with a row already present before the
run; unreached messages therefore stay above the cursor. -/
theorem cursor_monotone_terminal (cfg : AutothreadConfig) (env : ChannelEnv)
    (pats : ContentPatterns) (channel : DiscordChannel) (db : AutothreadDB)
    (ctx : RunCtxState) (now : Int) (m : DiscordMessage) (u : Nat)
    (hmode : cfg.mode ≠ ExecutionMode.plan)
    (hm : m ∈ newMessagesOf env (getLastMessageId db channel.id))
    (hu : getLastMessageId (processChannel cfg env pats channel db ctx now).db channel.id = some u)
    (hle : m.id ≤ u) :
    cursorLe (getLastMessageId db channel.id)
      (getLastMessageId (processChannel cfg env pats channel db ctx now).db channel.id)
    ∧ ∃ r, lookupProcessed (processChannel cfg env pats channel db ctx now).db channel.id m.id = some r
        ∧ (terminalStatus r.status = true ∨ (lookupProcessed db channel.id m.id).isSome = true) := by
  by_cases hempty : newMessagesOf env (getLastMessageId db channel.id) = []
  · rw [hempty] at hm
    exact absurd hm (List.not_mem_nil m)
  · by_cases hcool : isChannelOnCooldown db now channel.id COOLDOWN_WINDOW_MS
        MAX_THREADS_PER_CHANNEL_PER_WINDOW = true
    · have hdbr : (processChannel cfg env pats channel db ctx now).db =
          updateChannelState db now channel.id channel.name channel.topic none := by
        simp only [processChannel, if_neg hempty, if_pos hcool, if_pos hmode]
      rw [hdbr, getLastMessageId_update_none] at hu
      exfalso
      rw [hu] at hm
      have hgt := newMessagesOf_gt env u m hm
      omega
    · obtain ⟨sF, hdb, hc1, hc2, hc3, hc4, hc5⟩ :=
        processChannel_main_facts cfg env pats channel db ctx now hmode hempty hcool
      by_cases hsome : sF.safeUpTo.isSome = true
      · obtain ⟨v, hv⟩ := Option.isSome_iff_exists.mp hsome
        have hcond : (cfg.mode ≠ ExecutionMode.plan ∧ sF.safeUpTo.isSome = true) := ⟨hmode, hsome⟩
        rw [hdb, if_pos hcond, hv] at hu
        rw [getLastMessageId_update_some] at hu
        injection hu with h2
        constructor
        · rw [hdb, if_pos hcond, hv, getLastMessageId_update_some]
          rw [hv] at hc1
          exact hc1
        · have hrec := hc3 m hm v hv (by omega)
          obtain ⟨r, hr⟩ := Option.isSome_iff_exists.mp hrec
          refine ⟨r, ?_, ?_⟩
          · rw [hdb, if_pos hcond, lookupProcessed_updateChannelState]
            exact hr
          · exact hc2 m.id r hr
      · have hcond : ¬ (cfg.mode ≠ ExecutionMode.plan ∧ sF.safeUpTo.isSome = true) :=
          fun hand => hsome hand.2
        rw [hdb, if_neg hcond] at hu
        rw [getLastMessageId_congr sF.db db channel.id hc4] at hu
        exfalso
        have hnone : sF.safeUpTo = none := Option.not_isSome_iff_eq_none.mp hsome
        rcases hc5 with h5 | ⟨u2, hu2, _⟩
        · rw [hnone] at h5
          rw [← h5] at hu
          cases hu
        · rw [hnone] at hu2
          cases hu2

/-- C3 witness: a live run on one fresh message advances the cursor to
that message, which has a terminal stored record. -/
theorem cursor_monotone_terminal_witness :
    cursorLe (getLastMessageId adbEmpty chanGeneral.id)
      (getLastMessageId (processChannel cfgLiveW envSingleMsg patsNone chanGeneral adbEmpty runCtx0 0).db chanGeneral.id)
    ∧ ∃ r, lookupProcessed (processChannel cfgLiveW envSingleMsg patsNone chanGeneral adbEmpty runCtx0 0).db
          chanGeneral.id msgHello.id = some r
        ∧ (terminalStatus r.status = true ∨ (lookupProcessed adbEmpty chanGeneral.id msgHello.id).isSome = true) :=
  cursor_monotone_terminal cfgLiveW envSingleMsg patsNone chanGeneral adbEmpty runCtx0 0 msgHello 5
    (by decide) (by decide) (by decide) (by decide)

/-- C2: claiming the same composite key twice yields exactly one stored
record — the first claim inserts the single row and the second returns
false on the unique-constraint collision without changing the table —
and the per-message loop body, on a colliding gate-passing message in
live mode, performs no external call, counts no error, changes nothing
except the in-memory safely-processed marker, which advances past the
message. -/
theorem claim_idempotent (db : AutothreadDB) (now1 now2 : Int) (cid mid : Nat)
    (st1 st2 : MessageStatus) (cfg : AutothreadConfig) (env : ChannelEnv)
    (pats : ContentPatterns) (channel : DiscordChannel) (now : Int) (quiet : Bool)
    (s : ChanState) (msg : DiscordMessage)
    (h0 : lookupProcessed db cid mid = none)
    (hmode : cfg.mode = ExecutionMode.live)
    (hpass : (evaluateMessageGates pats msg).passed = true)
    (hcol : (lookupProcessed s.db channel.id msg.id).isSome = true) :
    (tryClaimMessage db now1 cid mid st1).1 = true
    ∧ (tryClaimMessage db now1 cid mid st1).2.processed.filter (procKeyMatch cid mid) =
        [claimRow now1 cid mid st1]
    ∧ (tryClaimMessage (tryClaimMessage db now1 cid mid st1).2 now2 cid mid st2).1 = false
    ∧ (tryClaimMessage (tryClaimMessage db now1 cid mid st1).2 now2 cid mid st2).2 =
        (tryClaimMessage db now1 cid mid st1).2
    ∧ processMessageStep cfg env pats channel now quiet s msg = { s with safeUpTo := some msg.id } := by
  obtain ⟨hc1, hc2, _⟩ := lookupProcessed_tryClaim_new db now1 cid mid st1 h0
  have hall : ∀ r ∈ db.processed, ¬ procKeyMatch cid mid r = true := by
    intro r hr hp
    have := List.find?_eq_none.mp h0 r hr
    exact this hp
  have hfilter0 : db.processed.filter (procKeyMatch cid mid) = [] := by
    rw [List.filter_eq_nil_iff]
    exact hall
  have hcollide := tryClaim_collision (tryClaimMessage db now1 cid mid st1).2 now2 cid mid st2
    (lookupProcessed_tryClaim_self db now1 cid mid st1)
  have hmodeNe : cfg.mode ≠ ExecutionMode.plan := by
    rw [hmode]
    intro hp
    exact ExecutionMode.noConfusion hp
  refine ⟨hc1, ?_, ?_, ?_, ?_⟩
  · rw [hc2, List.filter_append, hfilter0]
    simp [procKeyMatch, claimRow]
  · rw [hcollide]
  · rw [hcollide]
  · exact processMessageStep_collision cfg env pats channel now quiet s msg hmodeNe hpass hcol

/-- C2 witness: the composite key (1, 5) claimed twice on a fresh table,
and the loop body run on the now-colliding message. -/
theorem claim_idempotent_witness :
    (tryClaimMessage adbEmpty 0 1 5 .processing).1 = true
    ∧ (tryClaimMessage adbEmpty 0 1 5 .processing).2.processed.filter (procKeyMatch 1 5) =
        [claimRow 0 1 5 .processing]
    ∧ (tryClaimMessage (tryClaimMessage adbEmpty 0 1 5 .processing).2 7 1 5 .processing).1 = false
    ∧ (tryClaimMessage (tryClaimMessage adbEmpty 0 1 5 .processing).2 7 1 5 .processing).2 =
        (tryClaimMessage adbEmpty 0 1 5 .processing).2
    ∧ processMessageStep cfgLiveW envSingleMsg patsNone chanGeneral 7 false stateExistingRow msgHello =
        { stateExistingRow with safeUpTo := some msgHello.id } :=
  claim_idempotent adbEmpty 0 7 1 5 .processing .processing cfgLiveW envSingleMsg patsNone
    chanGeneral 7 false stateExistingRow msgHello
    (by decide) (by decide) (by decide) (by decide)

/-- C7: in live mode, when the creation call fails with the recognized
already-exists error (Discord code 160004), the loop body treats it as
success: the record becomes created with no stored thread id, the error
counter is not incremented, no error action is recorded, the creation
counter is not incremented, and the safely-processed marker advances
past the message. -/
theorem thread_already_exists_as_created (cfg : AutothreadConfig) (env : ChannelEnv)
    (pats : ContentPatterns) (channel : DiscordChannel) (now : Int) (quiet : Bool)
    (s : ChanState) (msg : DiscordMessage) (e : JsErr)
    (hmode : cfg.mode = ExecutionMode.live)
    (hpass : (evaluateMessageGates pats msg).passed = true)
    (hnone : lookupProcessed s.db channel.id msg.id = none)
    (houtcome : env.threadOutcome msg.id (chosenThreadName cfg env msg) = Except.error e)
    (halready : isThreadAlreadyExistsError e = true) :
    lookupProcessed (processMessageStep cfg env pats channel now quiet s msg).db channel.id msg.id =
      some { channelId := channel.id, messageId := msg.id, threadId := none,
             status := .created, error := none, processedAt := now }
    ∧ (processMessageStep cfg env pats channel now quiet s msg).ctx.errorsThisRun = s.ctx.errorsThisRun
    ∧ (processMessageStep cfg env pats channel now quiet s msg).safeUpTo = some msg.id
    ∧ (processMessageStep cfg env pats channel now quiet s msg).threadsCreated = s.threadsCreated
    ∧ (processMessageStep cfg env pats channel now quiet s msg).actions = s.actions := by
  have hmodeNe : cfg.mode ≠ ExecutionMode.plan := by
    rw [hmode]
    intro hp
    exact ExecutionMode.noConfusion hp
  have hdry : ¬ cfg.mode = ExecutionMode.dry_run := by
    rw [hmode]
    intro hp
    exact ExecutionMode.noConfusion hp
  obtain ⟨hc1, _, hc3⟩ := lookupProcessed_tryClaim_new s.db now channel.id msg.id .processing hnone
  have hself := lookupProcessed_updateStatus_self
    (tryClaimMessage s.db now channel.id msg.id .processing).2 now channel.id msg.id
    .created none none (claimRow now channel.id msg.id .processing) hc3
  simp only [processMessageStep, pushEvent, hpass, Bool.not_true, Bool.false_eq_true, if_false,
    if_neg hmodeNe, if_neg hdry, hc1, houtcome, if_pos halready]
  refine ⟨?_, by trivial, by trivial, by trivial, by trivial⟩
  rw [hself]
  rfl

/-- C7 witness: one fresh gate-passing message whose creation call
returns Discord error code 160004. -/
theorem thread_already_exists_as_created_witness :
    lookupProcessed (processMessageStep cfgLiveW envAlreadyExists patsNone chanGeneral 0 false
        stateEmptyDb msgHello).db chanGeneral.id msgHello.id =
      some { channelId := chanGeneral.id, messageId := msgHello.id, threadId := none,
             status := .created, error := none, processedAt := 0 }
    ∧ (processMessageStep cfgLiveW envAlreadyExists patsNone chanGeneral 0 false
        stateEmptyDb msgHello).ctx.errorsThisRun = stateEmptyDb.ctx.errorsThisRun
    ∧ (processMessageStep cfgLiveW envAlreadyExists patsNone chanGeneral 0 false
        stateEmptyDb msgHello).safeUpTo = some msgHello.id
    ∧ (processMessageStep cfgLiveW envAlreadyExists patsNone chanGeneral 0 false
        stateEmptyDb msgHello).threadsCreated = stateEmptyDb.threadsCreated
    ∧ (processMessageStep cfgLiveW envAlreadyExists patsNone chanGeneral 0 false
        stateEmptyDb msgHello).actions = stateEmptyDb.actions :=
  thread_already_exists_as_created cfgLiveW envAlreadyExists patsNone chanGeneral 0 false
    stateEmptyDb msgHello (JsErr.discordApi 400 (some 160004))
    (by decide) (by decide) (by decide) rfl (by decide)

/-! ## Plan-mode frame lemmas and C9 -/

theorem processLoop_plan_db (cfg : AutothreadConfig) (env : ChannelEnv) (pats : ContentPatterns)
    (channel : DiscordChannel) (now : Int) (quiet : Bool)
    (hmode : cfg.mode = ExecutionMode.plan) (rem : List DiscordMessage) (s : ChanState) :
    (processLoop cfg env pats channel now quiet rem s).db = s.db := by
  induction rem generalizing s with
  | nil => rfl
  | cons msg rest ih =>
    simp only [processLoop]
    by_cases hcap : cfg.maxThreadsPerRun ≤ s.ctx.threadsCreatedThisRun + s.threadsCreated
    · rw [if_pos hcap]
      rfl
    · rw [if_neg hcap]
      rw [ih (processMessageStep cfg env pats channel now quiet s msg)]
      exact (processMessageStep_plan cfg env pats channel now quiet s msg hmode).1

theorem processLoop_plan_calls (cfg : AutothreadConfig) (env : ChannelEnv) (pats : ContentPatterns)
    (channel : DiscordChannel) (now : Int) (quiet : Bool)
    (hmode : cfg.mode = ExecutionMode.plan) (rem : List DiscordMessage) (s : ChanState) :
    (processLoop cfg env pats channel now quiet rem s).extCalls = s.extCalls := by
  induction rem generalizing s with
  | nil => rfl
  | cons msg rest ih =>
    simp only [processLoop]
    by_cases hcap : cfg.maxThreadsPerRun ≤ s.ctx.threadsCreatedThisRun + s.threadsCreated
    · rw [if_pos hcap]
      rfl
    · rw [if_neg hcap]
      rw [ih (processMessageStep cfg env pats channel now quiet s msg)]
      exact (processMessageStep_plan cfg env pats channel now quiet s msg hmode).2

theorem processChannel_plan (cfg : AutothreadConfig) (env : ChannelEnv) (pats : ContentPatterns)
    (channel : DiscordChannel) (db : AutothreadDB) (ctx : RunCtxState) (now : Int)
    (hmode : cfg.mode = ExecutionMode.plan) :
    (processChannel cfg env pats channel db ctx now).db = db
    ∧ (processChannel cfg env pats channel db ctx now).extCalls = [] := by
  have hnn : ¬ (cfg.mode ≠ ExecutionMode.plan) := by simp [hmode]
  by_cases hempty : newMessagesOf env (getLastMessageId db channel.id) = []
  · simp only [processChannel, if_pos hempty, if_neg hnn]
    constructor <;> trivial
  · by_cases hcool : isChannelOnCooldown db now channel.id COOLDOWN_WINDOW_MS
        MAX_THREADS_PER_CHANNEL_PER_WINDOW = true
    · simp only [processChannel, if_neg hempty, if_pos hcool, if_neg hnn]
      constructor <;> trivial
    · simp only [processChannel, if_neg hempty, if_neg hcool]
      constructor
      · split
        · rename_i hand
          exact absurd hand.1 hnn
        · rw [processLoop_plan_db cfg env pats channel now (hasQuietMode channel.topic) hmode]
      · rw [processLoop_plan_calls cfg env pats channel now (hasQuietMode channel.topic) hmode]

theorem pollLoop_plan (cfg : AutothreadConfig) (envOf : Nat → ChannelEnv)
    (pats : ContentPatterns) (now : Int) (hmode : cfg.mode = ExecutionMode.plan) :
    ∀ (chans : List DiscordChannel) (db : AutothreadDB) (ctx : RunCtxState)
      (acts : List PlannedAction) (calls : List ExtCall),
      (pollLoop cfg envOf pats now chans db ctx acts calls).db = db
      ∧ (pollLoop cfg envOf pats now chans db ctx acts calls).extCalls = calls := by
  intro chans
  induction chans with
  | nil => intro db ctx acts calls; exact ⟨rfl, rfl⟩
  | cons ch rest ih =>
    intro db ctx acts calls
    simp only [pollLoop]
    by_cases hcap : cfg.maxThreadsPerRun ≤ ctx.threadsCreatedThisRun
    · rw [if_pos hcap]
      exact ⟨rfl, rfl⟩
    · rw [if_neg hcap]
      obtain ⟨p1, p2⟩ := processChannel_plan cfg (envOf ch.id) pats ch db ctx now hmode
      obtain ⟨q1, q2⟩ := ih (processChannel cfg (envOf ch.id) pats ch db ctx now).db
        { (processChannel cfg (envOf ch.id) pats ch db ctx now).ctx with
          threadsCreatedThisRun :=
            (processChannel cfg (envOf ch.id) pats ch db ctx now).ctx.threadsCreatedThisRun +
              (processChannel cfg (envOf ch.id) pats ch db ctx now).threadsCreated }
        (acts ++ (processChannel cfg (envOf ch.id) pats ch db ctx now).actions)
        (calls ++ (processChannel cfg (envOf ch.id) pats ch db ctx now).extCalls)
      constructor
      · rw [q1, p1]
      · rw [q2, p2, List.append_nil]

/-- C9: a poll pass executed in plan mode performs no writes to the
channels, processed or stats tables and no external side-effecting
calls: the store is returned unchanged and the list of external calls is
empty. -/
theorem plan_mode_no_writes (cfg : AutothreadConfig) (envOf : Nat → ChannelEnv)
    (pats : ContentPatterns) (guildChannels : List DiscordChannel)
    (db : AutothreadDB) (ctx : RunCtxState) (now : Int)
    (hmode : cfg.mode = ExecutionMode.plan) :
    (pollAndProcessMessages cfg envOf pats guildChannels db ctx now).db = db
    ∧ (pollAndProcessMessages cfg envOf pats guildChannels db ctx now).extCalls = [] := by
  simp only [pollAndProcessMessages]
  split
  · constructor <;> trivial
  · split
    · constructor <;> trivial
    · exact pollLoop_plan cfg envOf pats now hmode _ db _ [] []

/-- C9 witness: a plan-mode pass over one tagged channel with one fresh
eligible message leaves the store unchanged and performs no external
call. -/
theorem plan_mode_no_writes_witness :
    (pollAndProcessMessages cfgPlanW (fun _ => envSingleMsg) patsNone [chanGeneral]
        adbEmpty runCtx0 0).db = adbEmpty
    ∧ (pollAndProcessMessages cfgPlanW (fun _ => envSingleMsg) patsNone [chanGeneral]
        adbEmpty runCtx0 0).extCalls = [] :=
  plan_mode_no_writes cfgPlanW (fun _ => envSingleMsg) patsNone [chanGeneral] adbEmpty runCtx0 0
    (by decide)

/-! ## Thread-name derivation and C10 -/

theorem natRepr_length_le_two : ∀ n, n < 60 → (Nat.repr n).length ≤ 2 := by decide

theorem intToString_length_le_two (i : Int) (h0 : 0 ≤ i) (hlt : i < 60) :
    (toString i).length ≤ 2 := by
  obtain ⟨n, rfl⟩ := Int.eq_ofNat_of_zero_le h0
  have hn : n < 60 := by exact_mod_cast hlt
  show (Nat.repr n).length ≤ 2
  exact natRepr_length_le_two n hn

theorem padStart2_length (s : String) (h : s.length ≤ 2) : (padStart2 s).length = 2 := by
  unfold padStart2
  by_cases hlt : s.length < 2
  · rw [if_pos hlt, String.length_append]
    have h1 : (String.mk (List.replicate (2 - s.length) '0')).length = 2 - s.length := by
      show (List.replicate (2 - s.length) '0').length = 2 - s.length
      exact List.length_replicate _ _
    rw [h1]
    omega
  · rw [if_neg hlt]
    omega

theorem hoursString_length (ts : Int) :
    (padStart2 (toString (jsGetUTCHours ts))).length = 2 := by
  refine padStart2_length _ (intToString_length_le_two _ ?_ ?_)
  · exact Int.emod_nonneg _ (by norm_num)
  · have h24 : jsGetUTCHours ts < 24 :=
      Int.emod_lt_of_pos (Int.ediv ts 3600000) (show (0 : Int) < 24 by norm_num)
    omega

theorem minutesString_length (ts : Int) :
    (padStart2 (toString (jsGetUTCMinutes ts))).length = 2 := by
  refine padStart2_length _ (intToString_length_le_two _ ?_ ?_)
  · exact Int.emod_nonneg _ (by norm_num)
  · exact Int.emod_lt_of_pos (Int.ediv ts 60000) (show (0 : Int) < 60 by norm_num)

/-- C10 counterexample: a message with empty content and a 74-character
author name yields the fallback template of length 98, above the
97-character bound the claim states for every message. -/
theorem generateThreadName_length_counterexample :
    (generateThreadName msgLongAuthor).length = 98
    ∧ ¬ (generateThreadName msgLongAuthor).length ≤ 97 := by
  constructor <;> decide

/-- C10 (amended): generateThreadName always returns a non-empty string;
when the sanitized content has at least the minimum length the result is
at most 97 characters (the content as-is, or its 94-character prefix
plus an ellipsis); otherwise the result is exactly the deterministic
fallback template, whose length is 24 plus the author name length (and
so exceeds 97 exactly when the author name exceeds 73 characters). -/
theorem generateThreadName_bounds (m : DiscordMessage) :
    0 < (generateThreadName m).length
    ∧ (MIN_MESSAGE_LENGTH ≤ (sanitizeContent m.content).length →
        (generateThreadName m).length ≤ MAX_THREAD_NAME_LENGTH)
    ∧ ((sanitizeContent m.content).length < MIN_MESSAGE_LENGTH →
        generateThreadName m =
          "Discussion from " ++ m.author.username ++ " @ " ++
            padStart2 (toString (jsGetUTCHours m.timestamp)) ++ ":" ++
            padStart2 (toString (jsGetUTCMinutes m.timestamp))
        ∧ (generateThreadName m).length = 24 + m.author.username.length) := by
  have hminv : MIN_MESSAGE_LENGTH = 10 := rfl
  have hmaxv : MAX_THREAD_NAME_LENGTH = 97 := rfl
  have hdata : (sanitizeContent m.content).length = (sanitizeContent m.content).data.length := rfl
  unfold generateThreadName
  by_cases hlen : MIN_MESSAGE_LENGTH ≤ (sanitizeContent m.content).length
  · rw [if_pos hlen]
    by_cases hbig : MAX_THREAD_NAME_LENGTH < (sanitizeContent m.content).length
    · rw [if_pos hbig]
      have hlen97 : (String.mk ((sanitizeContent m.content).data.take (MAX_THREAD_NAME_LENGTH - 3))
          ++ "...").length = 97 := by
        rw [String.length_append]
        have h1 : (String.mk ((sanitizeContent m.content).data.take (MAX_THREAD_NAME_LENGTH - 3))).length
            = ((sanitizeContent m.content).data.take (MAX_THREAD_NAME_LENGTH - 3)).length := rfl
        have h2 : ((sanitizeContent m.content).data.take (MAX_THREAD_NAME_LENGTH - 3)).length =
            min (MAX_THREAD_NAME_LENGTH - 3) (sanitizeContent m.content).data.length :=
          List.length_take _ _
        have h3 : ("..." : String).length = 3 := rfl
        rw [h1, h2, h3]
        omega
      refine ⟨by omega, fun _ => by omega, fun hc => absurd hlen (by omega)⟩
    · rw [if_neg hbig]
      refine ⟨by omega, fun _ => by omega, fun hc => absurd hlen (by omega)⟩
  · rw [if_neg hlen]
    have hh := hoursString_length m.timestamp
    have hm2 := minutesString_length m.timestamp
    have hfull : ("Discussion from " ++ m.author.username ++ " @ " ++
        padStart2 (toString (jsGetUTCHours m.timestamp)) ++ ":" ++
        padStart2 (toString (jsGetUTCMinutes m.timestamp))).length =
        24 + m.author.username.length := by
      simp only [String.length_append]
      have e1 : ("Discussion from " : String).length = 16 := rfl
      have e2 : (" @ " : String).length = 3 := rfl
      have e3 : (":" : String).length = 1 := rfl
      rw [e1, e2, e3, hh, hm2]
      omega
    refine ⟨?_, fun hc => absurd hc hlen, fun _ => ⟨rfl, ?_⟩⟩
    · show 0 < ("Discussion from " ++ m.author.username ++ " @ " ++
        padStart2 (toString (jsGetUTCHours m.timestamp)) ++ ":" ++
        padStart2 (toString (jsGetUTCMinutes m.timestamp))).length
      rw [hfull]
      omega
    · show ("Discussion from " ++ m.author.username ++ " @ " ++
        padStart2 (toString (jsGetUTCHours m.timestamp)) ++ ":" ++
        padStart2 (toString (jsGetUTCMinutes m.timestamp))).length = 24 + m.author.username.length
      exact hfull

/-- C10 witness: the bounds evaluated at a concrete message with content
of sufficient length. -/
theorem generateThreadName_bounds_witness :
    0 < (generateThreadName msgHello).length
    ∧ (MIN_MESSAGE_LENGTH ≤ (sanitizeContent msgHello.content).length →
        (generateThreadName msgHello).length ≤ MAX_THREAD_NAME_LENGTH)
    ∧ ((sanitizeContent msgHello.content).length < MIN_MESSAGE_LENGTH →
        generateThreadName msgHello =
          "Discussion from " ++ msgHello.author.username ++ " @ " ++
            padStart2 (toString (jsGetUTCHours msgHello.timestamp)) ++ ":" ++
            padStart2 (toString (jsGetUTCMinutes msgHello.timestamp))
        ∧ (generateThreadName msgHello).length = 24 + msgHello.author.username.length) :=
  generateThreadName_bounds msgHello

/-- C6 witness: three recent created records for channel 1 and one
pending message at instant 1000000. -/
theorem cooldown_skips_channel_witness :
    (processChannel cfgLiveW envSingleMsg patsNone chanGeneral adbThreeCreated runCtx0 1000000).threadsCreated = 0
    ∧ (processChannel cfgLiveW envSingleMsg patsNone chanGeneral adbThreeCreated runCtx0 1000000).actions =
        [{ actionType := .cooldown, channelId := chanGeneral.id, channelName := chanGeneral.name,
           reason := some ("Cooldown: " ++ toString MAX_THREADS_PER_CHANNEL_PER_WINDOW ++
             " threads in " ++ toString (Int.ediv COOLDOWN_WINDOW_MS 60000) ++ " min") }]
    ∧ (processChannel cfgLiveW envSingleMsg patsNone chanGeneral adbThreeCreated runCtx0 1000000).extCalls = []
    ∧ (processChannel cfgLiveW envSingleMsg patsNone chanGeneral adbThreeCreated runCtx0 1000000).db.processed =
        adbThreeCreated.processed
    ∧ (processChannel cfgLiveW envSingleMsg patsNone chanGeneral adbThreeCreated runCtx0 1000000).db.stats =
        adbThreeCreated.stats
    ∧ (cfgLiveW.mode ≠ ExecutionMode.plan →
        (processChannel cfgLiveW envSingleMsg patsNone chanGeneral adbThreeCreated runCtx0 1000000).db =
          updateChannelState adbThreeCreated 1000000 chanGeneral.id chanGeneral.name chanGeneral.topic none)
    ∧ (cfgLiveW.mode = ExecutionMode.plan →
        (processChannel cfgLiveW envSingleMsg patsNone chanGeneral adbThreeCreated runCtx0 1000000).db =
          adbThreeCreated) :=
  cooldown_skips_channel cfgLiveW envSingleMsg patsNone chanGeneral adbThreeCreated runCtx0 1000000
    (by decide) (by decide)
